import Mathlib

/-!
Verification model of the photo synchronisation tool (client side `sync.py`,
device side `phone.py`).

Python dictionaries are modelled as association lists over a flat value type
`PyVal`; the local file system as an association list from path strings to
file contents; timestamps as integers (the specification fixes integer
precision for dates); and the MD5 digest as an abstract digest function
`md5c : List Nat → String` passed explicitly to every operation that hashes
bytes, since none of the verified properties depend on the internals of MD5.
JSON serialisation of a metadata dictionary is modelled as storing the
dictionary itself in the file store (`FileVal.json`), i.e. the round trip
`json.dump` / `json.load` is taken as the identity.
-/

/-- Values occurring in the (flat) asset dictionaries exchanged between the
client and the device: strings, integers, booleans, raw byte payloads and
Python `None`. -/
inductive PyVal where
  | str (s : String)
  | int (n : Int)
  | bool (b : Bool)
  | bytes (b : List Nat)
  | none
deriving DecidableEq, Repr

/-- Python dictionaries with string keys, modelled as association lists; the
first binding of a key is its value. -/
abbrev Dict := List (String × PyVal)

/-- Value bound to key `k`, if any (Python `d[k]` / `d.get(k)`). -/
def dlookup (d : Dict) (k : String) : Option PyVal :=
  match d with
  | [] => Option.none
  | (k2, v) :: rest => if k2 = k then some v else dlookup rest k

/-- Remove every binding of key `k` (used to model overwriting and `del`). -/
def derase (d : Dict) (k : String) : Dict :=
  d.filter (fun kv => kv.1 != k)

/-- Python `d[k] = v`: bind `k` to `v`, dropping any previous binding. -/
def dinsert (d : Dict) (k : String) (v : PyVal) : Dict :=
  (k, v) :: derase d k

/-- Keys of a dictionary. -/
def dkeys (d : Dict) : List String := d.map Prod.fst

/-- Python dictionary equality: both sides bind exactly the same keys to
equal values. -/
def dictEqv (a b : Dict) : Bool :=
  (dkeys a ++ dkeys b).all (fun k => decide (dlookup a k = dlookup b k))

/-- Failure modes of the modelled Python code: `keyError`, `typeError` and
`valueError` mirror the built-in exceptions; `fileNotFound` a missing file;
`jsonError` a sidecar that does not hold JSON; `sizeMismatch` and
`checksumMismatch` are the two `BaseException`s raised by `Storage.retrieve`
(`sync.py` lines 120 and 132); `usageError` is the `BaseException` raised by
`sane_date_parse` (`sync.py` line 278). -/
inductive PyErr where
  | keyError | typeError | valueError | fileNotFound | jsonError
  | sizeMismatch | checksumMismatch | usageError
deriving DecidableEq, Repr

instance {ε α : Type} [DecidableEq ε] [DecidableEq α] : DecidableEq (Except ε α) :=
  fun a b =>
    match a, b with
    | .ok x, .ok y =>
      if h : x = y then .isTrue (by cases h; rfl)
      else .isFalse (fun hc => by cases hc; exact h rfl)
    | .ok _, .error _ => .isFalse (fun hc => by cases hc)
    | .error _, .ok _ => .isFalse (fun hc => by cases hc)
    | .error x, .error y =>
      if h : x = y then .isTrue (by cases h; rfl)
      else .isFalse (fun hc => by cases hc; exact h rfl)

/-- Python `d[k]` as an expression: `KeyError` when the key is absent. -/
def dictGet (d : Dict) (k : String) : Except PyErr PyVal :=
  match dlookup d k with
  | some v => .ok v
  | Option.none => .error .keyError

/-- Contents of one file in the archive: raw bytes (the data file) or a JSON
metadata dictionary (the sidecar). -/
inductive FileVal where
  | bytes (b : List Nat)
  | json (d : Dict)
deriving DecidableEq, Repr

/-- The local file system: an association list from paths to contents; the
first binding of a path is its current content. -/
abbrev FS := List (String × FileVal)

/-- Content stored at path `p`, if the file exists. -/
def fsGet (fs : FS) (p : String) : Option FileVal :=
  match fs with
  | [] => Option.none
  | (q, v) :: rest => if q = p then some v else fsGet rest p

/-- Whole-file write with overwrite semantics. -/
def fsSet (fs : FS) (p : String) (v : FileVal) : FS := (p, v) :: fs

/-- Civil calendar (year, month) of a day count relative to 1970-01-01,
the standard days-to-civil conversion underlying
`datetime.datetime.utcfromtimestamp`. -/
def civilOfDays (day : Int) : Int × Nat :=
  let z := day + 719468
  let era := z.fdiv 146097
  let doe := z - era * 146097
  let yoe := (doe - doe.fdiv 1460 + doe.fdiv 36524 - doe.fdiv 146096).fdiv 365
  let y := yoe + era * 400
  let doy := doe - (365 * yoe + yoe.fdiv 4 - yoe.fdiv 100)
  let mp := (5 * doy + 2).fdiv 153
  let m := mp + (if mp < 10 then 3 else -9)
  (if m ≤ 2 then y + 1 else y, m.toNat)

/-- Left-pad a decimal string with zeros to width `w`. -/
def padZero (w : Nat) (s : String) : String :=
  if s.length < w then String.mk (List.replicate (w - s.length) '0') ++ s else s

/-- `strftime` directive `%Y` on a UTC timestamp. -/
def utcYearStr (t : Int) : String :=
  let y := (civilOfDays (t.fdiv 86400)).1
  if y < 0 then toString y else padZero 4 (toString y.toNat)

/-- `strftime` directive `%m` on a UTC timestamp. -/
def utcMonthStr (t : Int) : String :=
  padZero 2 (toString (civilOfDays (t.fdiv 86400)).2)

/-- One directive of `strftime`; only `%Y` and `%m` are used by the source
(`sync.py` line 40, format string built as `'%'+f` for `f` in `("Y", "m")`). -/
def strftime1 (f : String) (t : Int) : Except PyErr String :=
  if f = "Y" then .ok (utcYearStr t)
  else if f = "m" then .ok (utcMonthStr t)
  else .error .valueError

/-- Python `str()` of a value, as used for template substitution. -/
def pyToStr : PyVal → String
  | .str s => s
  | .int n => toString n
  | .bool b => if b then "True" else "False"
  | .bytes _ => "bytes"
  | .none => "None"

/-- Core of Python `str.format(**m)` on the subset of templates the tool
uses: literal characters plus plain `\x7bkey\x7d` fields, no brace escapes.
`mode = none` scans literals; `mode = some acc` accumulates a field name in
reverse. Absent keys raise `KeyError`, an unterminated or stray brace
`ValueError`. -/
def formatChars (m : Dict) (mode : Option (List Char)) : List Char → Except PyErr (List Char)
  | [] =>
    match mode with
    | Option.none => .ok []
    | some _ => .error .valueError
  | c :: rest =>
    match mode with
    | Option.none =>
      if c = '{' then formatChars m (some []) rest
      else if c = '}' then .error .valueError
      else (formatChars m Option.none rest).map (fun r => c :: r)
    | some acc =>
      if c = '}' then
        match dlookup m (String.mk acc.reverse) with
        | Option.none => .error .keyError
        | some v => (formatChars m Option.none rest).map (fun r => (pyToStr v).toList ++ r)
      else formatChars m (some (c :: acc)) rest

/-- Python `template.format(**m)`. -/
def pyFormat (template : String) (m : Dict) : Except PyErr String :=
  (formatChars m Option.none template.toList).map String.mk

/-- Test for a single-character Python `str.startswith`. -/
def pyStartsWith1 (s : String) (c : Char) : Bool := s.toList.take 1 = [c]

/-- Python `os.path.join` for the two-argument case used by the source; the
separator tests are on single characters, so `startswith("/")` is the first
character being `/` and a trailing separator is the last character being
`/`. -/
def os_path_join (a b : String) : String :=
  if pyStartsWith1 b '/' then b
  else if a = "" then b
  else if a.toList.getLast? = some '/' then a ++ b
  else a ++ "/" ++ b

/-- Python `os.path.dirname`: everything up to and including the last `/`,
with trailing separators stripped unless the head is all separators; the
empty string when the path has no `/`. -/
def os_path_dirname (p : String) : String :=
  let cs := p.toList
  let (_, revHead) := cs.reverse.span (fun c => c != '/')
  let head := revHead.reverse
  if head = [] then ""
  else if head.all (fun c => c = '/') then String.mk head
  else String.mk ((head.reverse.dropWhile (fun c => c = '/')).reverse)

/-- Python `os.makedirs(d, exist_ok=True)` on the flat file-system model:
directories are not tracked, so creation of a nonempty path is a no-op, but
`os.makedirs("")` always raises `FileNotFoundError` — the one failure mode
derivable from the storage configuration alone (a template yielding a bare
relative path has an empty dirname). -/
def os_makedirs (d : String) : Except PyErr Unit :=
  if d = "" then .error .fileNotFound else .ok ()

/-- Stem of a file name: drop the `pathlib` suffix, i.e. everything from the
last dot provided that dot is neither the first nor the last character. -/
def stemOf (cs : List Char) : List Char :=
  match cs.reverse.span (fun c => c != '.') with
  | (_, []) => cs
  | (ext, _dot :: rest) => if rest = [] || ext = [] then cs else rest.reverse

/-- Python `Path(p).with_suffix(".json")`: replace the extension of the last
path component with `.json`. -/
def with_suffix_json (p : String) : String :=
  let cs := p.toList
  let (revName, revDirs) := cs.reverse.span (fun c => c != '/')
  String.mk (revDirs.reverse ++ stemOf revName.reverse ++ (".json").toList)

/-- The client-side `Storage` object (`sync.py` lines 26-30): output
directory and the two path templates. -/
structure Storage where
  dir : String
  path : String
  metadata_path : String
deriving DecidableEq, Repr

/-- One step of the loop body of `Storage.metadata_for_path` (`sync.py`
lines 36-40): read `asset[key]` (a `TypeError` unless it is a number,
since `utcfromtimestamp` needs one), format it with directive `f` and bind
the result to `f ++ "_" ++ sfx` in `z`. -/
def addDateField (asset z : Dict) (f sfx key : String) : Except PyErr Dict :=
  match dlookup asset key with
  | some (.int t) => (strftime1 f t).map (fun s => dinsert z (f ++ "_" ++ sfx) (.str s))
  | some _ => .error .typeError
  | Option.none => .error .keyError

/-- `Storage.metadata_for_path` (`sync.py` lines 32-41): copy the asset
dictionary and add the four derived date fields `Y_create`, `m_create`,
`Y_mod`, `m_mod`, reading `creation_date` and `modification_date` from the
asset. The loop order of the source (suffix outer, directive inner) is
unrolled. -/
def metadata_for_path (asset : Dict) : Except PyErr Dict := do
  let z := asset
  let z ← addDateField asset z "Y" "create" "creation_date"
  let z ← addDateField asset z "m" "create" "creation_date"
  let z ← addDateField asset z "Y" "mod" "modification_date"
  let z ← addDateField asset z "m" "mod" "modification_date"
  return z

/-- `Storage.get_path` (`sync.py` lines 43-45). -/
def get_path (st : Storage) (asset : Dict) : Except PyErr String := do
  let m ← metadata_for_path asset
  let s ← pyFormat st.path m
  return os_path_join st.dir s

/-- `Storage.get_metadata_path` (`sync.py` lines 47-50). -/
def get_metadata_path (st : Storage) (asset : Dict) : Except PyErr String := do
  let m ← metadata_for_path asset
  let s ← pyFormat st.metadata_path m
  return with_suffix_json (os_path_join st.dir s)

/-- `Storage.files_to_sync` (`sync.py` lines 52-72): keep an asset when its
metadata sidecar is missing, or when the sidecar's stored
`modification_date` differs from the asset's. A sidecar that is not JSON
fails `json.load`; a sidecar without `modification_date` raises `KeyError`. -/
def files_to_sync (st : Storage) (fs : FS) : List Dict → Except PyErr (List Dict)
  | [] => .ok []
  | asset :: rest => do
    let pmd ← get_metadata_path st asset
    match fsGet fs pmd with
    | Option.none => (files_to_sync st fs rest).map (fun r => asset :: r)
    | some (.bytes _) => .error .jsonError
    | some (.json data) => do
      let dv ← dictGet data "modification_date"
      let av ← dictGet asset "modification_date"
      if dv ≠ av then (files_to_sync st fs rest).map (fun r => asset :: r)
      else files_to_sync st fs rest

/-- `Storage.load_from_disk` (`sync.py` lines 74-93): read the sidecar, read
the data file back, and extend the sidecar dictionary with `_filesize` (the
byte length read) and `_md5` (the digest of the bytes read). -/
def load_from_disk (md5c : List Nat → String) (st : Storage) (fs : FS) (asset : Dict) :
    Except PyErr Dict := do
  let pmd ← get_metadata_path st asset
  let data ← match fsGet fs pmd with
    | some (.json d) => Except.ok d
    | some (.bytes _) => Except.error PyErr.jsonError
    | Option.none => Except.error PyErr.fileNotFound
  let gp ← get_path st asset
  let z ← match fsGet fs gp with
    | some (.bytes b) => Except.ok b
    | some (.json _) => Except.error PyErr.typeError
    | Option.none => Except.error PyErr.fileNotFound
  return dinsert (dinsert data "_filesize" (.int z.length)) "_md5" (.str (md5c z))

/-- `Storage.retrieve` (`sync.py` lines 96-142). The phone proxy is the
function `p` (its `retrieve_asset_by_local_id`). Steps, in source order:
compute both paths, read `asset["local_id"]`, fetch the asset, extract its
`_data` bytes, create the parent directories of both paths (lines 104-105,
raising `FileNotFoundError` when a dirname is empty), write the bytes to the
data path, read that file back, compare the length read with the reported
`_filesize` (raising the size error on any difference, including a
non-integer report, since Python `!=` is then true), compare the recomputed
digest with the reported `_md5` likewise, and only then write the sidecar
holding the retrieved metadata with every underscore-prefixed key stripped.
Returns the file system as left by the call together with the result. -/
def retrieve (md5c : List Nat → String) (p : PyVal → Except PyErr Dict)
    (st : Storage) (fs : FS) (asset : Dict) : FS × Except PyErr Dict :=
  match (do
      let gp ← get_path st asset
      let pmd ← get_metadata_path st asset
      let lid ← dictGet asset "local_id"
      let retrieved ← p lid
      let dat ← match dlookup retrieved "_data" with
        | some (.bytes b) => Except.ok b
        | some _ => Except.error PyErr.typeError
        | Option.none => Except.error PyErr.keyError
      let _ ← os_makedirs (os_path_dirname gp)
      let _ ← os_makedirs (os_path_dirname pmd)
      return (gp, pmd, retrieved, dat) : Except PyErr (String × String × Dict × List Nat)) with
  | .error e => (fs, .error e)
  | .ok (gp, pmd, retrieved, dat) =>
    let fs1 := fsSet fs gp (.bytes dat)
    match fsGet fs1 gp with
    | Option.none => (fs1, .error .fileNotFound)
    | some (.json _) => (fs1, .error .typeError)
    | some (.bytes z) =>
      match dlookup retrieved "_filesize" with
      | Option.none => (fs1, .error .keyError)
      | some fszv =>
        if PyVal.int z.length ≠ fszv then (fs1, .error .sizeMismatch)
        else
          match dlookup retrieved "_md5" with
          | Option.none => (fs1, .error .keyError)
          | some md5v =>
            if PyVal.str (md5c z) ≠ md5v then (fs1, .error .checksumMismatch)
            else
              let clean := retrieved.filter (fun kv => !(pyStartsWith1 kv.1 '_'))
              (fsSet fs1 pmd (.json clean), .ok retrieved)

/-- One asset as held by the device: its serialisable metadata dictionary
(the result of `PhotoService._make_serializable` on the native asset, a
binding that is out of scope and therefore modelled as stored data) and the
raw bytes the native export produces for it. -/
structure DeviceAsset where
  meta : Dict
  data : List Nat
deriving DecidableEq, Repr

/-- `photos.get_asset_with_local_id` as used by `phone.py`: first asset of
the library whose `local_id` equals the argument. -/
def get_asset_with_local_id (lib : List DeviceAsset) (lid : PyVal) : Option DeviceAsset :=
  lib.find? (fun a => dlookup a.meta "local_id" == some lid)

/-- `PhotoService.get_all_metadata` (`phone.py` lines 26-33): the metadata
dictionaries of all assets, in library order. -/
def get_all_metadata (lib : List DeviceAsset) : List Dict :=
  lib.map DeviceAsset.meta

/-- `PhotoService.retrieve_asset_by_local_id` (`phone.py` lines 175-194):
serialise the asset and add `_filesize`, `_data` and `_md5`, computed from
the exported bytes. An unknown `local_id` makes `get_asset_with_local_id`
return `None`, on which the subsequent item assignment raises `TypeError`. -/
def retrieve_asset_by_local_id (md5c : List Nat → String) (lib : List DeviceAsset)
    (lid : PyVal) : Except PyErr Dict :=
  match get_asset_with_local_id lib lid with
  | Option.none => .error .typeError
  | some a =>
    .ok (dinsert (dinsert (dinsert a.meta "_filesize" (.int a.data.length))
          "_data" (.bytes a.data)) "_md5" (.str (md5c a.data)))

/-- Outcome of `PhotoService.delete_assets_by_metadata`: `completed batch`
means the single `photos.batch_delete` call was issued for exactly the named
assets (represented by their `local_id`s, standing for the native handles
appended by the source); `aborted` means the integrity check failed with the
override unset and the function returned before any deletion. -/
inductive DeleteOutcome where
  | completed (batch : List PyVal)
  | aborted
deriving DecidableEq, Repr

/-- Loop of `PhotoService.delete_assets_by_metadata` (`phone.py` lines
55-76) with the accumulated `to_delete` list: for each proof record, fetch
the live asset, drop the `_data` key (`KeyError` if absent) and compare the
dictionaries; a mismatch aborts the whole batch unless `ignore_integrity`
is set, in which case the record is still scheduled for deletion. -/
def delete_assets_loop (md5c : List Nat → String) (lib : List DeviceAsset) :
    List Dict → List PyVal → Bool → Except PyErr DeleteOutcome
  | [], acc, _ => .ok (.completed acc)
  | m :: rest, acc, ign => do
    let lid ← dictGet m "local_id"
    let opm ← retrieve_asset_by_local_id md5c lib lid
    let opm2 ← if (dlookup opm "_data").isSome
      then Except.ok (derase opm "_data") else Except.error PyErr.keyError
    if dictEqv opm2 m then delete_assets_loop md5c lib rest (acc ++ [lid]) ign
    else if ign then delete_assets_loop md5c lib rest (acc ++ [lid]) ign
    else .ok .aborted

/-- `PhotoService.delete_assets_by_metadata` (`phone.py` lines 50-76). -/
def delete_assets_by_metadata (md5c : List Nat → String) (lib : List DeviceAsset)
    (proofs : List Dict) (ignore_integrity : Bool) : Except PyErr DeleteOutcome :=
  delete_assets_loop md5c lib proofs [] ignore_integrity

/-- One asset collection as consumed by `run_delete`: its member assets.
Only the `assets` field of an album is read by the client. -/
structure Album where
  assets : List Dict
deriving DecidableEq, Repr

/-- Result of `PhotoService.get_asset_collections` (`phone.py` lines 35-48),
one field per key of the returned dictionary. -/
structure AssetCollections where
  albums : List Album
  smart_albums : List Album
  moments : List Album
  favorites_album : List Album
  recently_added_album : List Album
  selfies_album : List Album
  screenshots_album : List Album
deriving DecidableEq, Repr

/-- Keep-set construction of `run_delete` (`sync.py` lines 199-202): the
`local_id`s of every asset of every manually created album. The Python set
is modelled as the list of added elements; only membership is ever used. -/
def keep_photos_of : List Album → Except PyErr (List PyVal)
  | [] => .ok []
  | album :: rest => do
    let here ← collectIds album.assets
    let there ← keep_photos_of rest
    return here ++ there
where
  /-- Inner loop: `asset["local_id"]` for each member asset. -/
  collectIds : List Dict → Except PyErr (List PyVal)
    | [] => .ok []
    | a :: rest => do
      let lid ← dictGet a "local_id"
      let more ← collectIds rest
      return lid :: more

/-- Prune-candidate loop of `run_delete` (`sync.py` lines 205-217):
`staleness = now - asset["modification_date"]`; an asset is appended to
`to_prune` exactly when `staleness >= retain_duration` and its `local_id` is
not in the keep set. The f-string log lines evaluate `asset["local_id"]`
for every asset and `asset["filename"]` for every stale asset, so those
keys are read (raising `KeyError` when absent) even though logging itself
is modelled as a no-op. -/
def run_delete_to_prune (now retain : ℚ) (keep : List PyVal) :
    List Dict → Except PyErr (List Dict)
  | [] => .ok []
  | asset :: rest => do
    let md ← dictGet asset "modification_date"
    let lid ← dictGet asset "local_id"
    match md with
    | .int mdn =>
      if now - (mdn : ℚ) ≥ retain then do
        let _fname ← dictGet asset "filename"
        let r ← run_delete_to_prune now retain keep rest
        if lid ∈ keep then return r else return asset :: r
      else run_delete_to_prune now retain keep rest
    | _ => .error .typeError

/-- Planning fragment of `run_delete` (`sync.py` lines 193-217): build the
keep set from the manually created albums (`asset_collections["albums"]`
only) and select the prune candidates. -/
def run_delete_plan (now retain : ℚ) (collections : AssetCollections)
    (on_phone : List Dict) : Except PyErr (List Dict) := do
  let keep ← keep_photos_of collections.albums
  run_delete_to_prune now retain keep on_phone

/-- Decimal value of a digit list, `none` on any non-digit. -/
def natOfDigitsL (cs : List Char) : Option Nat :=
  go cs 0
where
  go : List Char → Nat → Option Nat
    | [], acc => some acc
    | c :: rest, acc =>
      if c.isDigit then go rest (acc * 10 + (c.toNat - 48)) else Option.none

/-- Python `float(s)` on the subset relevant here: an optional sign, then
decimal digits with an optional fractional part. At least one digit must be
present. Exponents, `inf`, `nan` and surrounding whitespace are outside the
modelled subset. -/
def parsePyFloat (s : String) : Option ℚ :=
  let cs := s.toList
  let (sign, cs) : ℚ × List Char :=
    match cs with
    | '-' :: t => (-1, t)
    | '+' :: t => (1, t)
    | t => (1, t)
  match cs.span (fun c => c != '.') with
  | (intPart, []) =>
    if intPart = [] then Option.none
    else (natOfDigitsL intPart).map (fun n => sign * n)
  | (intPart, _dot :: fracPart) =>
    if intPart = [] && fracPart = [] then Option.none
    else
      match natOfDigitsL intPart, natOfDigitsL fracPart with
      | some i, some f =>
        some (sign * ((i : ℚ) + (f : ℚ) / ((10 : ℚ) ^ fracPart.length)))
      | _, _ => Option.none

/-- Python `s[0:-1]`. -/
def dropLastChar (s : String) : String := String.mk s.toList.dropLast

/-- Last character of a string, if any. -/
def lastChar (s : String) : Option Char := s.toList.getLast?

/-- `sane_date_parse` (`sync.py` lines 260-280): a number followed by `d`
(days), `m` (months of 31 days) or `w` (weeks), in the source's test order;
any other input raises the usage `BaseException`. A suffix match with an
unparsable number is Python's `ValueError` from `float`. -/
def sane_date_parse (v : String) : Except PyErr ℚ :=
  let day : ℚ := 60 * 60 * 24
  let week : ℚ := 7 * day
  let month : ℚ := 31 * day
  if lastChar v = some 'd' then
    match parsePyFloat (dropLastChar v) with
    | some x => .ok (day * x)
    | Option.none => .error .valueError
  else if lastChar v = some 'm' then
    match parsePyFloat (dropLastChar v) with
    | some x => .ok (month * x)
    | Option.none => .error .valueError
  else if lastChar v = some 'w' then
    match parsePyFloat (dropLastChar v) with
    | some x => .ok (week * x)
    | Option.none => .error .valueError
  else .error .usageError

/-- Dispatch of the `delete` subcommand in `__main__` (`sync.py` lines
282-288 and 313): `--retain-duration` is converted by `sane_date_parse`
inside `parse_args`, so a conversion failure is a usage error raised before
`run_delete` constructs the `Phone` proxy; only a successful parse reaches
any network activity. -/
inductive DeleteCliOutcome where
  | usage
  | connect (retain : ℚ)
deriving DecidableEq, Repr

/-- CLI-level behaviour of the retain-duration argument. -/
def delete_cli (durStr : String) : DeleteCliOutcome :=
  match sane_date_parse durStr with
  | .error _ => .usage
  | .ok q => .connect q

/-- Per-asset body of the loop of `run_sync` (`sync.py` lines 159-164):
`retrieve` the asset, then the progress f-string reads `filename`,
`_filesize` and `creation_date` (the last through `utcfromtimestamp`, so it
must be a number) from the retrieved dictionary. -/
def run_sync_step (md5c : List Nat → String) (p : PyVal → Except PyErr Dict)
    (st : Storage) (fs : FS) (asset : Dict) : FS × Except PyErr Unit :=
  match retrieve md5c p st fs asset with
  | (fs2, .error e) => (fs2, .error e)
  | (fs2, .ok retrieved) =>
    match dlookup retrieved "filename", dlookup retrieved "_filesize" with
    | some _, some _ =>
      match dlookup retrieved "creation_date" with
      | some (.int _) => (fs2, .ok ())
      | some _ => (fs2, .error .typeError)
      | Option.none => (fs2, .error .keyError)
    | _, _ => (fs2, .error .keyError)

/-- Download loop of `run_sync`: a raised retrieval error propagates and
aborts the remaining queue, as in the source. -/
def run_sync_loop (md5c : List Nat → String) (p : PyVal → Except PyErr Dict)
    (st : Storage) (fs : FS) : List Dict → FS × Except PyErr Unit
  | [] => (fs, .ok ())
  | asset :: rest =>
    match run_sync_step md5c p st fs asset with
    | (fs2, .ok ()) => run_sync_loop md5c p st fs2 rest
    | (fs2, .error e) => (fs2, .error e)

/-- `run_sync` (`sync.py` lines 144-164) for a given phone proxy and asset
list: plan with `files_to_sync`, then retrieve each planned asset in
order. -/
def run_sync (md5c : List Nat → String) (p : PyVal → Except PyErr Dict)
    (st : Storage) (fs : FS) (on_phone : List Dict) : FS × Except PyErr Unit :=
  match files_to_sync st fs on_phone with
  | .error e => (fs, .error e)
  | .ok to_sync => run_sync_loop md5c p st fs to_sync

/-!
Reference-and-mutation model of the path helpers, used to settle the frame
claim about `metadata_for_path`. Python dictionaries live on a heap of
cells; `copy.copy` allocates a fresh cell, and item assignment mutates one
cell in place. The path helpers are re-traced on this heap to show they
never write to the cell of their asset argument.
-/

/-- Heap of Python dictionary objects; a reference is an index. -/
abbrev Heap := List Dict

/-- Dereference a dictionary object. -/
def heapGet (h : Heap) (r : Nat) : Option Dict := h.get? r

/-- `copy.copy(asset)` (`sync.py` line 35): allocate a fresh cell holding a
shallow copy of the referenced dictionary. -/
def heapCopy (h : Heap) (r : Nat) : Except PyErr (Heap × Nat) :=
  match h.get? r with
  | some d => .ok (h ++ [d], h.length)
  | Option.none => .error .typeError

/-- Python `z[k] = v` on a heap cell. -/
def heapSetKey (h : Heap) (r : Nat) (k : String) (v : PyVal) : Except PyErr Heap :=
  match h.get? r with
  | some d => .ok (h.set r (dinsert d k v))
  | Option.none => .error .typeError

/-- Python `d[k]` on a heap cell. -/
def heapGetKey (h : Heap) (r : Nat) (k : String) : Except PyErr PyVal :=
  match h.get? r with
  | some d => dictGet d k
  | Option.none => .error .typeError

/-- One loop iteration of `Storage.metadata_for_path` on the heap: read
`asset[key]` from the asset cell and assign the formatted date to
`z[f ++ "_" ++ sfx]`. -/
def mfpStep (h : Heap) (assetR zR : Nat) (f sfx key : String) : Except PyErr Heap := do
  let t ← heapGetKey h assetR key
  match t with
  | .int n => do
    let s ← strftime1 f n
    heapSetKey h zR (f ++ "_" ++ sfx) (.str s)
  | _ => .error .typeError

/-- `Storage.metadata_for_path` (`sync.py` lines 32-41) on the heap:
`z = copy.copy(asset)`, then the four date fields are assigned on `z`,
reading the timestamps from `asset`. Returns the reference to `z`. -/
def metadata_for_path_mut (h : Heap) (assetR : Nat) : Except PyErr (Heap × Nat) := do
  let (h1, zR) ← heapCopy h assetR
  let h2 ← mfpStep h1 assetR zR "Y" "create" "creation_date"
  let h3 ← mfpStep h2 assetR zR "m" "create" "creation_date"
  let h4 ← mfpStep h3 assetR zR "Y" "mod" "modification_date"
  let h5 ← mfpStep h4 assetR zR "m" "mod" "modification_date"
  return (h5, zR)

/-- `Storage.get_path` on the heap. -/
def get_path_mut (st : Storage) (h : Heap) (assetR : Nat) :
    Except PyErr (Heap × String) := do
  let (h1, zR) ← metadata_for_path_mut h assetR
  match heapGet h1 zR with
  | some m => do
    let s ← pyFormat st.path m
    return (h1, os_path_join st.dir s)
  | Option.none => .error .typeError

/-- `Storage.get_metadata_path` on the heap. -/
def get_metadata_path_mut (st : Storage) (h : Heap) (assetR : Nat) :
    Except PyErr (Heap × String) := do
  let (h1, zR) ← metadata_for_path_mut h assetR
  match heapGet h1 zR with
  | some m => do
    let s ← pyFormat st.metadata_path m
    return (h1, with_suffix_json (os_path_join st.dir s))
  | Option.none => .error .typeError

/-- `Storage.files_to_sync` on the heap, over references to the candidate
asset dictionaries. The sidecar dictionary produced by `json.load` is a
fresh pure value and needs no heap cell. -/
def files_to_sync_mut (st : Storage) (fs : FS) :
    Heap → List Nat → Except PyErr (Heap × List Nat)
  | h, [] => .ok (h, [])
  | h, r :: rest => do
    let (h1, pmd) ← get_metadata_path_mut st h r
    match fsGet fs pmd with
    | Option.none => do
      let (h2, out) ← files_to_sync_mut st fs h1 rest
      return (h2, r :: out)
    | some (.bytes _) => .error .jsonError
    | some (.json data) => do
      let dv ← dictGet data "modification_date"
      let av ← heapGetKey h1 r "modification_date"
      if dv ≠ av then do
        let (h2, out) ← files_to_sync_mut st fs h1 rest
        return (h2, r :: out)
      else files_to_sync_mut st fs h1 rest

/-!
Specification-side definitions: predicates written from the wording of the
specification, to be compared with the functions traced from the source.
-/

/-- Specification predicate of the sync planner: an asset needs syncing when
no sidecar exists at its computed metadata path, or the stored
`modification_date` differs from the asset's. States on which
`files_to_sync` raises (non-JSON sidecar, failing path computation, missing
key) never reach a successful run, and the value chosen for them here is
immaterial. -/
def syncNeeded (st : Storage) (fs : FS) (a : Dict) : Bool :=
  match get_metadata_path st a with
  | .error _ => false
  | .ok q =>
    match fsGet fs q with
    | Option.none => true
    | some (.bytes _) => false
    | some (.json d) => decide (dlookup d "modification_date" ≠ dlookup a "modification_date")

/-- Transient-field stripping as worded by the specification of the
device-side deletion acceptance: all three of `_data`, `_filesize` and
`_md5` removed before comparing. -/
def stripTransient (d : Dict) : Dict :=
  derase (derase (derase d "_data") "_filesize") "_md5"

/-- Specification predicate of the retention planner: a prune candidate is
an asset whose staleness reaches the retain duration and whose `local_id`
is not in the keep set. Assets on which `run_delete` raises never reach a
successful run. -/
def pruneCandidate (now retain : ℚ) (keep : List PyVal) (a : Dict) : Bool :=
  match dlookup a "modification_date", dlookup a "local_id" with
  | some (.int m), some lid => decide (now - (m : ℚ) ≥ retain) && decide (lid ∉ keep)
  | _, _ => false

/-!
Elementary lemmas about the dictionary and file-system models.
-/

/-- Filtering on a key predicate commutes with lookup at a key the
predicate accepts. -/
theorem dlookup_filter_key (d : Dict) (p : String → Bool) (k : String) (hk : p k = true) :
    dlookup (d.filter (fun kv => p kv.1)) k = dlookup d k := by
  induction d with
  | nil => rfl
  | cons kv rest ih =>
    rw [List.filter_cons]
    by_cases hp : p kv.1 = true
    · rw [if_pos hp]
      simp only [dlookup]
      by_cases hk2 : kv.1 = k
      · rw [if_pos hk2, if_pos hk2]
      · rw [if_neg hk2, if_neg hk2]; exact ih
    · rw [if_neg hp]
      simp only [dlookup]
      by_cases hk2 : kv.1 = k
      · exact absurd (show p kv.1 = true by rw [hk2]; exact hk) hp
      · rw [if_neg hk2]; exact ih

/-- Filtering on a key predicate removes a rejected key entirely. -/
theorem dlookup_filter_key_neg (d : Dict) (p : String → Bool) (k : String) (hk : p k = false) :
    dlookup (d.filter (fun kv => p kv.1)) k = Option.none := by
  induction d with
  | nil => rfl
  | cons kv rest ih =>
    rw [List.filter_cons]
    by_cases hp : p kv.1 = true
    · rw [if_pos hp]
      simp only [dlookup]
      by_cases hk2 : kv.1 = k
      · exact absurd (show p k = true by rw [← hk2]; exact hp) (by rw [hk]; simp)
      · rw [if_neg hk2]; exact ih
    · rw [if_neg hp]; exact ih

theorem dlookup_derase_ne (d : Dict) (k k2 : String) (h : k ≠ k2) :
    dlookup (derase d k) k2 = dlookup d k2 :=
  dlookup_filter_key d (fun s => s != k) k2 (by rw [bne_iff_ne]; exact fun hc => h hc.symm)

theorem dlookup_derase_self (d : Dict) (k : String) :
    dlookup (derase d k) k = Option.none :=
  dlookup_filter_key_neg d (fun s => s != k) k (by simp)

theorem dlookup_dinsert_self (d : Dict) (k : String) (v : PyVal) :
    dlookup (dinsert d k v) k = some v := by
  simp [dinsert, dlookup]

theorem dlookup_dinsert_ne (d : Dict) (k k2 : String) (v : PyVal) (h : k ≠ k2) :
    dlookup (dinsert d k v) k2 = dlookup d k2 := by
  simp only [dinsert, dlookup, if_neg h]
  exact dlookup_derase_ne d k k2 h

theorem fsGet_fsSet_self (fs : FS) (p : String) (v : FileVal) :
    fsGet (fsSet fs p v) p = some v := by
  simp [fsSet, fsGet]

theorem fsGet_fsSet_ne (fs : FS) (p q : String) (v : FileVal) (h : p ≠ q) :
    fsGet (fsSet fs p v) q = fsGet fs q := by
  simp [fsSet, fsGet, h]

/-- C9: the retain-duration parser maps "30d" to 2,592,000 seconds, "2w" to
1,209,600 seconds and "1m" to 2,678,400 seconds (a month approximated as 31
days), and any input whose final character is not one of `d`, `w`, `m` is
rejected with the usage error; at the CLI level such an input stops the
`delete` subcommand during argument parsing, before any phone connection. -/
theorem sane_date_parse_spec (v : String)
    (hv : lastChar v ≠ some 'd' ∧ lastChar v ≠ some 'm' ∧ lastChar v ≠ some 'w') :
    sane_date_parse "30d" = .ok 2592000 ∧
    sane_date_parse "2w" = .ok 1209600 ∧
    sane_date_parse "1m" = .ok 2678400 ∧
    sane_date_parse v = .error .usageError ∧
    delete_cli v = .usage := by
  have hrej : sane_date_parse v = .error .usageError := by
    simp [sane_date_parse, hv.1, hv.2.1, hv.2.2]
  have h30 : sane_date_parse "30d" = .ok 2592000 := by
    have e : sane_date_parse "30d" = .ok ((60 * 60 * 24 : ℚ) * (1 * ((30 : Nat) : ℚ))) := rfl
    rw [e]; norm_num
  have h2w : sane_date_parse "2w" = .ok 1209600 := by
    have e : sane_date_parse "2w" = .ok ((7 * (60 * 60 * 24) : ℚ) * (1 * ((2 : Nat) : ℚ))) := rfl
    rw [e]; norm_num
  have h1m : sane_date_parse "1m" = .ok 2678400 := by
    have e : sane_date_parse "1m" = .ok ((31 * (60 * 60 * 24) : ℚ) * (1 * ((1 : Nat) : ℚ))) := rfl
    rw [e]; norm_num
  exact ⟨h30, h2w, h1m, hrej, by simp [delete_cli, hrej]⟩

/-- Witness for `sane_date_parse_spec` at the concrete rejected input
"5x". -/
theorem sane_date_parse_spec_witness :
    (lastChar "5x" ≠ some 'd' ∧ lastChar "5x" ≠ some 'm' ∧ lastChar "5x" ≠ some 'w') ∧
    (sane_date_parse "30d" = .ok 2592000 ∧
      sane_date_parse "2w" = .ok 1209600 ∧
      sane_date_parse "1m" = .ok 2678400 ∧
      sane_date_parse "5x" = .error .usageError ∧
      delete_cli "5x" = .usage) :=
  ⟨by decide, sane_date_parse_spec "5x" (by decide)⟩

theorem dictGet_ok_iff (d : Dict) (k : String) (v : PyVal) :
    dictGet d k = .ok v ↔ dlookup d k = some v := by
  unfold dictGet
  cases h : dlookup d k <;> simp

theorem except_bind_ok {α β ε : Type} (x : α) (f : α → Except ε β) :
    (Except.ok x >>= f) = f x := rfl

theorem except_bind_error {α β ε : Type} (e : ε) (f : α → Except ε β) :
    ((Except.error e : Except ε α) >>= f) = .error e := rfl

theorem except_map_ok2 {α β ε : Type} (f : α → β) (x : α) :
    Except.map f (Except.ok x : Except ε α) = .ok (f x) := rfl

theorem except_map_error2 {α β ε : Type} (f : α → β) (e : ε) :
    Except.map f (Except.error e : Except ε α) = .error e := rfl

/-- C6: a successful `files_to_sync` returns exactly the input assets whose
sidecar is missing or stale, in input order: the result is the input list
filtered by `syncNeeded`, and membership in the result is membership in the
input plus the sync condition. -/
theorem files_to_sync_filter_spec (st : Storage) (fs : FS) (l r : List Dict)
    (h : files_to_sync st fs l = .ok r) :
    r = l.filter (syncNeeded st fs) ∧
    ∀ a, a ∈ r ↔ a ∈ l ∧ syncNeeded st fs a = true := by
  have main : ∀ (l2 r2 : List Dict), files_to_sync st fs l2 = .ok r2 →
      r2 = l2.filter (syncNeeded st fs) := by
    intro l2
    induction l2 with
    | nil =>
      intro r2 h2
      simp only [files_to_sync] at h2
      cases h2
      rfl
    | cons a rest ih =>
      intro r2 h2
      simp only [files_to_sync] at h2
      cases hp : get_metadata_path st a with
      | error e => simp [hp, except_bind_error] at h2
      | ok q =>
        simp only [hp, except_bind_ok] at h2
        cases hf : fsGet fs q with
        | none =>
          simp only [hf] at h2
          cases hrec : files_to_sync st fs rest with
          | error e => simp [hrec, except_map_error2] at h2
          | ok r0 =>
            simp only [hrec, except_map_ok2, Except.ok.injEq] at h2
            subst h2
            rw [List.filter_cons, if_pos (by simp [syncNeeded, hp, hf])]
            rw [ih r0 hrec]
        | some fv =>
          cases fv with
          | bytes b => simp [hf] at h2
          | json d =>
            simp only [hf] at h2
            cases hd : dictGet d "modification_date" with
            | error e => simp [hd, except_bind_error] at h2
            | ok dv =>
              simp only [hd, except_bind_ok] at h2
              cases ha : dictGet a "modification_date" with
              | error e => simp [ha, except_bind_error] at h2
              | ok av =>
                simp only [ha, except_bind_ok] at h2
                rw [dictGet_ok_iff] at hd ha
                by_cases hne : dv = av
                · subst hne
                  simp only [ne_eq, not_true_eq_false, reduceIte] at h2
                  rw [List.filter_cons, if_neg (by simp [syncNeeded, hp, hf, hd, ha])]
                  exact ih r2 h2
                · simp only [ne_eq, hne, not_false_eq_true, reduceIte] at h2
                  cases hrec : files_to_sync st fs rest with
                  | error e => simp [hrec, except_map_error2] at h2
                  | ok r0 =>
                    simp only [hrec, except_map_ok2, Except.ok.injEq] at h2
                    subst h2
                    rw [List.filter_cons, if_pos (by simp [syncNeeded, hp, hf, hd, ha, hne])]
                    rw [ih r0 hrec]
  have hfil := main l r h
  refine ⟨hfil, fun a => ?_⟩
  rw [hfil, List.mem_filter]

/-- Concrete fixtures for the witnesses: the source's default templates, two
September-2020 assets, and an archive already holding a matching sidecar for
the second one. -/
def wStorage : Storage :=
  { dir := "/tmp/storage", path := "{Y_create}-{m_create}/{filename}",
    metadata_path := "{Y_create}-{m_create}/metadata/{filename}" }

def wAssetA : Dict :=
  [("local_id", .str "A1"), ("filename", .str "a.heic"),
   ("creation_date", .int 1600000000), ("modification_date", .int 1600000000)]

def wAssetB : Dict :=
  [("local_id", .str "B2"), ("filename", .str "b.mov"),
   ("creation_date", .int 1600000000), ("modification_date", .int 1600000001)]

def wFS : FS := [("/tmp/storage/2020-09/metadata/b.json", .json wAssetB)]

/-- Witness for `files_to_sync_filter_spec`: with asset A unarchived and
asset B archived up to date, the planner returns exactly A. -/
theorem files_to_sync_filter_spec_witness :
    files_to_sync wStorage wFS [wAssetA, wAssetB] = .ok [wAssetA] ∧
    ([wAssetA] = [wAssetA, wAssetB].filter (syncNeeded wStorage wFS) ∧
      ∀ a, a ∈ [wAssetA] ↔ a ∈ [wAssetA, wAssetB] ∧ syncNeeded wStorage wFS a = true) :=
  ⟨by decide, files_to_sync_filter_spec wStorage wFS [wAssetA, wAssetB] [wAssetA] (by decide)⟩

/-- C4: for an asset with an existing sidecar and data file,
`load_from_disk` returns the sidecar's stored metadata extended with
`_filesize` equal to the byte length of the data file's current contents and
`_md5` equal to the digest recomputed from those same bytes; every other key
keeps the sidecar's value. The conclusion holds for every current content
`z`, so mutating the data file out of band changes the returned digest
accordingly, and no stored checksum is ever returned. -/
theorem load_from_disk_recomputes (md5c : List Nat → String) (st : Storage) (fs : FS)
    (asset : Dict) (pmd gp : String) (d : Dict) (z : List Nat)
    (hmd : get_metadata_path st asset = .ok pmd)
    (hgp : get_path st asset = .ok gp)
    (hside : fsGet fs pmd = some (.json d))
    (hdata : fsGet fs gp = some (.bytes z)) :
    load_from_disk md5c st fs asset =
      .ok (dinsert (dinsert d "_filesize" (.int z.length)) "_md5" (.str (md5c z))) ∧
    ∀ r, load_from_disk md5c st fs asset = .ok r →
      dlookup r "_md5" = some (.str (md5c z)) ∧
      dlookup r "_filesize" = some (.int z.length) ∧
      ∀ k, k ≠ "_filesize" → k ≠ "_md5" → dlookup r k = dlookup d k := by
  have heq : load_from_disk md5c st fs asset =
      .ok (dinsert (dinsert d "_filesize" (.int z.length)) "_md5" (.str (md5c z))) := by
    simp only [load_from_disk, hmd, hgp, hside, hdata, except_bind_ok]
    rfl
  refine ⟨heq, fun r hr => ?_⟩
  rw [heq] at hr
  cases hr
  refine ⟨dlookup_dinsert_self _ _ _, ?_, ?_⟩
  · rw [dlookup_dinsert_ne _ _ _ _ (by decide)]
    exact dlookup_dinsert_self _ _ _
  · intro k hk1 hk2
    rw [dlookup_dinsert_ne _ _ _ _ (fun hc => hk2 hc.symm)]
    rw [dlookup_dinsert_ne _ _ _ _ (fun hc => hk1 hc.symm)]

/-- Stand-in digest function used by the concrete witnesses: the decimal
byte count. The verified statements are parametric in the digest. -/
def wMd5 (b : List Nat) : String := toString b.length

/-- Archive holding both the sidecar and the data file of asset B. -/
def wFS2 : FS :=
  [("/tmp/storage/2020-09/metadata/b.json", .json wAssetB),
   ("/tmp/storage/2020-09/b.mov", .bytes [1, 2, 3])]

/-- Witness for `load_from_disk_recomputes` on asset B with three bytes on
disk. -/
theorem load_from_disk_recomputes_witness :
    fsGet wFS2 "/tmp/storage/2020-09/b.mov" = some (.bytes [1, 2, 3]) ∧
    load_from_disk wMd5 wStorage wFS2 wAssetB =
      .ok (dinsert (dinsert wAssetB "_filesize" (.int 3)) "_md5" (.str "3")) :=
  ⟨by decide,
    (load_from_disk_recomputes wMd5 wStorage wFS2 wAssetB
      "/tmp/storage/2020-09/metadata/b.json" "/tmp/storage/2020-09/b.mov" wAssetB [1, 2, 3]
      (by decide) (by decide) (by decide) (by decide)).1⟩

theorem except_pure_ok {α ε : Type} (x : α) : (pure x : Except ε α) = .ok x := rfl

/-- C2: a successful `run_delete` plan prunes exactly the assets that are
stale (`now - modification_date ≥ retain_duration`) and whose `local_id` is
outside the keep set; an asset whose `local_id` belongs to any manual album
is never a prune candidate regardless of staleness; and the whole plan
depends only on the `albums` component of the collections, not on smart
albums, moments or the system collections. -/
theorem run_delete_prune_candidates (now retain : ℚ) (collections : AssetCollections)
    (on_phone pruned : List Dict) (keep : List PyVal)
    (hkeep : keep_photos_of collections.albums = .ok keep)
    (hrun : run_delete_plan now retain collections on_phone = .ok pruned) :
    pruned = on_phone.filter (pruneCandidate now retain keep) ∧
    (∀ a lid, a ∈ on_phone → dlookup a "local_id" = some lid → lid ∈ keep → a ∉ pruned) ∧
    (∀ c2 : AssetCollections, c2.albums = collections.albums →
      run_delete_plan now retain c2 on_phone = .ok pruned) := by
  simp only [run_delete_plan, hkeep, except_bind_ok] at hrun
  have main : ∀ (l2 r2 : List Dict), run_delete_to_prune now retain keep l2 = .ok r2 →
      r2 = l2.filter (pruneCandidate now retain keep) := by
    intro l2
    induction l2 with
    | nil =>
      intro r2 h2
      simp only [run_delete_to_prune] at h2
      cases h2
      rfl
    | cons a rest ih =>
      intro r2 h2
      simp only [run_delete_to_prune] at h2
      cases hmdg : dictGet a "modification_date" with
      | error e => simp [hmdg, except_bind_error] at h2
      | ok mdv =>
        simp only [hmdg, except_bind_ok] at h2
        cases hlg : dictGet a "local_id" with
        | error e => simp [hlg, except_bind_error] at h2
        | ok lid =>
          simp only [hlg, except_bind_ok] at h2
          cases mdv with
          | str s => simp at h2
          | bool b => simp at h2
          | bytes b => simp at h2
          | none => simp at h2
          | int mdn =>
            simp only at h2
            rw [dictGet_ok_iff] at hmdg hlg
            by_cases hst : now - (mdn : ℚ) ≥ retain
            · rw [if_pos hst] at h2
              cases hfg : dictGet a "filename" with
              | error e => simp [hfg, except_bind_error] at h2
              | ok fn =>
                simp only [hfg, except_bind_ok] at h2
                cases hrec : run_delete_to_prune now retain keep rest with
                | error e => simp [hrec, except_bind_error] at h2
                | ok r0 =>
                  simp only [hrec, except_bind_ok] at h2
                  by_cases hk : lid ∈ keep
                  · rw [if_pos hk] at h2
                    simp only [except_pure_ok, Except.ok.injEq] at h2
                    subst h2
                    rw [List.filter_cons,
                      if_neg (by simp [pruneCandidate, hmdg, hlg, hk])]
                    exact ih r0 hrec
                  · rw [if_neg hk] at h2
                    simp only [except_pure_ok, Except.ok.injEq] at h2
                    subst h2
                    rw [List.filter_cons,
                      if_pos (by simp [pruneCandidate, hmdg, hlg, hst, hk])]
                    rw [ih r0 hrec]
            · rw [if_neg hst] at h2
              rw [List.filter_cons,
                if_neg (by simp [pruneCandidate, hmdg, hlg, hst])]
              exact ih r2 h2
  have hfil := main on_phone pruned hrun
  refine ⟨hfil, ?_, ?_⟩
  · intro a lid ha hlid hk hmem
    rw [hfil] at hmem
    have hpc : pruneCandidate now retain keep a = true := (List.mem_filter.mp hmem).2
    cases hmd2 : dlookup a "modification_date" with
    | none => simp [pruneCandidate, hmd2, hlid] at hpc
    | some v =>
      cases v with
      | int m =>
        simp only [pruneCandidate, hmd2, hlid, Bool.and_eq_true, decide_eq_true_eq] at hpc
        exact hpc.2 hk
      | str s => simp [pruneCandidate, hmd2, hlid] at hpc
      | bool b => simp [pruneCandidate, hmd2, hlid] at hpc
      | bytes b => simp [pruneCandidate, hmd2, hlid] at hpc
      | none => simp [pruneCandidate, hmd2, hlid] at hpc
  · intro c2 hc2
    simp only [run_delete_plan, hc2, hkeep, except_bind_ok]
    exact hrun

/-- Assets for the deletion-planner witness; `run_delete` never computes
paths, so only the keys it reads are present. Both have staleness
`0 - 0 = 0`, reaching a retain duration of zero. -/
def wAssetP : Dict :=
  [("local_id", .str "P1"), ("filename", .str "p.jpg"), ("modification_date", .int 0)]

def wAssetQ : Dict :=
  [("local_id", .str "Q2"), ("filename", .str "q.jpg"), ("modification_date", .int 0)]

/-- Manual album holding asset P, plus a smart album holding asset Q, which
must not protect Q. -/
def wCollections : AssetCollections :=
  { albums := [{ assets := [wAssetP] }],
    smart_albums := [{ assets := [wAssetQ] }],
    moments := [], favorites_album := [], recently_added_album := [],
    selfies_album := [], screenshots_album := [] }

/-- Witness for `run_delete_prune_candidates`: with retain duration zero and
both assets stale, only Q (unprotected) is pruned, never P (in a manual
album). -/
theorem run_delete_prune_candidates_witness :
    keep_photos_of wCollections.albums = .ok [.str "P1"] ∧
    run_delete_plan 0 0 wCollections [wAssetP, wAssetQ] = .ok [wAssetQ] ∧
    [wAssetQ] = [wAssetP, wAssetQ].filter (pruneCandidate 0 0 [.str "P1"]) :=
  ⟨by decide,
    by simp [run_delete_plan, run_delete_to_prune, keep_photos_of,
      keep_photos_of.collectIds, dictGet, dlookup, wAssetP, wAssetQ, wCollections,
      except_bind_ok, except_pure_ok],
    (run_delete_prune_candidates 0 0 wCollections [wAssetP, wAssetQ] [wAssetQ]
      [.str "P1"] (by decide)
      (by simp [run_delete_plan, run_delete_to_prune, keep_photos_of,
        keep_photos_of.collectIds, dictGet, dlookup, wAssetP, wAssetQ, wCollections,
        except_bind_ok, except_pure_ok])).1⟩

/-- Result of the code's per-record integrity check: `none` when the record
cannot be resolved (missing `local_id` or unknown asset), otherwise whether
the live representation with `_data` dropped equals the record. -/
def recordComparison (md5c : List Nat → String) (lib : List DeviceAsset) (m : Dict) :
    Option Bool :=
  match dictGet m "local_id" with
  | .error _ => Option.none
  | .ok lid =>
    match retrieve_asset_by_local_id md5c lib lid with
    | .error _ => Option.none
    | .ok opm => some (dictEqv (derase opm "_data") m)

/-- The `local_id` a proof record names. -/
def proofLid (m : Dict) : PyVal := (dlookup m "local_id").getD .none

theorem proofLid_eq (m : Dict) (lid : PyVal) (h : dictGet m "local_id" = .ok lid) :
    proofLid m = lid := by
  rw [dictGet_ok_iff] at h
  simp [proofLid, h]

theorem retrieve_has_data (md5c : List Nat → String) (lib : List DeviceAsset)
    (lid : PyVal) (opm : Dict) (h : retrieve_asset_by_local_id md5c lib lid = .ok opm) :
    (dlookup opm "_data").isSome = true := by
  unfold retrieve_asset_by_local_id at h
  cases hg : get_asset_with_local_id lib lid with
  | none => rw [hg] at h; cases h
  | some a =>
    rw [hg] at h
    cases h
    rw [dlookup_dinsert_ne _ _ _ _ (by decide), dlookup_dinsert_self]
    rfl

theorem recordComparison_eq (md5c : List Nat → String) (lib : List DeviceAsset)
    (m : Dict) (lid : PyVal) (opm : Dict)
    (h1 : dictGet m "local_id" = .ok lid)
    (h2 : retrieve_asset_by_local_id md5c lib lid = .ok opm) :
    recordComparison md5c lib m = some (dictEqv (derase opm "_data") m) := by
  simp [recordComparison, h1, h2]

theorem recordComparison_isSome_elim (md5c : List Nat → String) (lib : List DeviceAsset)
    (m : Dict) (h : recordComparison md5c lib m ≠ Option.none) :
    ∃ lid opm, dictGet m "local_id" = .ok lid ∧
      retrieve_asset_by_local_id md5c lib lid = .ok opm := by
  unfold recordComparison at h
  cases hg : dictGet m "local_id" with
  | error e => simp only [hg] at h; simp at h
  | ok lid =>
    simp only [hg] at h
    cases hr : retrieve_asset_by_local_id md5c lib lid with
    | error e => simp only [hr] at h; simp at h
    | ok opm => exact ⟨lid, opm, rfl, hr⟩

/-- One step of the deletion loop when the record resolves. -/
theorem delete_loop_step (md5c : List Nat → String) (lib : List DeviceAsset)
    (m : Dict) (rest : List Dict) (acc : List PyVal) (ign : Bool)
    (lid : PyVal) (opm : Dict)
    (h1 : dictGet m "local_id" = .ok lid)
    (h2 : retrieve_asset_by_local_id md5c lib lid = .ok opm) :
    delete_assets_loop md5c lib (m :: rest) acc ign =
      if dictEqv (derase opm "_data") m then
        delete_assets_loop md5c lib rest (acc ++ [lid]) ign
      else if ign then delete_assets_loop md5c lib rest (acc ++ [lid]) ign
      else .ok .aborted := by
  have hd := retrieve_has_data md5c lib lid opm h2
  simp [delete_assets_loop, h1, h2, hd, except_bind_ok]

theorem delete_loop_ignore (md5c : List Nat → String) (lib : List DeviceAsset) :
    ∀ (proofs : List Dict) (acc : List PyVal),
      (∀ m ∈ proofs, recordComparison md5c lib m ≠ Option.none) →
      delete_assets_loop md5c lib proofs acc true =
        .ok (.completed (acc ++ proofs.map proofLid)) := by
  intro proofs
  induction proofs with
  | nil => intro acc _; simp [delete_assets_loop]
  | cons m rest ih =>
    intro acc h
    obtain ⟨lid, opm, h1, h2⟩ := recordComparison_isSome_elim md5c lib m (h m (by simp))
    rw [delete_loop_step md5c lib m rest acc true lid opm h1 h2]
    have hrest : ∀ m2 ∈ rest, recordComparison md5c lib m2 ≠ Option.none :=
      fun m2 hm2 => h m2 (by simp [hm2])
    by_cases hc : dictEqv (derase opm "_data") m
    · rw [if_pos hc, ih (acc ++ [lid]) hrest]
      simp [proofLid_eq m lid h1]
    · rw [if_neg hc, if_pos rfl, ih (acc ++ [lid]) hrest]
      simp [proofLid_eq m lid h1]

theorem delete_loop_all_true (md5c : List Nat → String) (lib : List DeviceAsset) :
    ∀ (proofs : List Dict) (acc : List PyVal) (ign : Bool),
      (∀ m ∈ proofs, recordComparison md5c lib m = some true) →
      delete_assets_loop md5c lib proofs acc ign =
        .ok (.completed (acc ++ proofs.map proofLid)) := by
  intro proofs
  induction proofs with
  | nil => intro acc ign _; simp [delete_assets_loop]
  | cons m rest ih =>
    intro acc ign h
    obtain ⟨lid, opm, h1, h2⟩ := recordComparison_isSome_elim md5c lib m
      (by rw [h m (by simp)]; simp)
    rw [delete_loop_step md5c lib m rest acc ign lid opm h1 h2]
    have hc : dictEqv (derase opm "_data") m = true := by
      have := h m (by simp)
      rw [recordComparison_eq md5c lib m lid opm h1 h2] at this
      exact Option.some.inj this
    rw [if_pos hc, ih (acc ++ [lid]) ign (fun m2 hm2 => h m2 (by simp [hm2]))]
    simp [proofLid_eq m lid h1]

theorem delete_loop_abort (md5c : List Nat → String) (lib : List DeviceAsset) :
    ∀ (proofs : List Dict) (acc : List PyVal),
      (∀ m ∈ proofs, recordComparison md5c lib m ≠ Option.none) →
      (∃ m ∈ proofs, recordComparison md5c lib m = some false) →
      delete_assets_loop md5c lib proofs acc false = .ok .aborted := by
  intro proofs
  induction proofs with
  | nil =>
    intro acc _ hex
    obtain ⟨m, hm, _⟩ := hex
    simp at hm
  | cons m rest ih =>
    intro acc h hex
    obtain ⟨lid, opm, h1, h2⟩ := recordComparison_isSome_elim md5c lib m (h m (by simp))
    rw [delete_loop_step md5c lib m rest acc false lid opm h1 h2]
    by_cases hc : dictEqv (derase opm "_data") m
    · rw [if_pos hc]
      apply ih (acc ++ [lid]) (fun m2 hm2 => h m2 (by simp [hm2]))
      obtain ⟨m0, hm0, hf⟩ := hex
      rcases List.mem_cons.mp hm0 with rfl | hm0r
      · rw [recordComparison_eq md5c lib m0 lid opm h1 h2] at hf
        rw [hc] at hf
        cases hf
      · exact ⟨m0, hm0r, hf⟩
    · rw [if_neg hc]
      simp

/-- C3: with every proof record resolvable, (a) if any record mismatches the
recomputed live representation and the override is unset the whole batch
ends aborted with no `batch_delete` call, (b) with the override set every
named asset, mismatching or not, is deleted in the single batch call, and
(c) on full acceptance all named assets are deleted in the single batch
call. -/
theorem delete_batch_all_or_nothing (md5c : List Nat → String) (lib : List DeviceAsset)
    (proofs : List Dict)
    (hres : ∀ m ∈ proofs, recordComparison md5c lib m ≠ Option.none) :
    ((∃ m ∈ proofs, recordComparison md5c lib m = some false) →
      delete_assets_by_metadata md5c lib proofs false = .ok .aborted) ∧
    delete_assets_by_metadata md5c lib proofs true =
      .ok (.completed (proofs.map proofLid)) ∧
    ((∀ m ∈ proofs, recordComparison md5c lib m = some true) →
      delete_assets_by_metadata md5c lib proofs false =
        .ok (.completed (proofs.map proofLid))) := by
  refine ⟨fun hex => ?_, ?_, fun hall => ?_⟩
  · simpa [delete_assets_by_metadata] using delete_loop_abort md5c lib proofs [] hres hex
  · simpa [delete_assets_by_metadata] using delete_loop_ignore md5c lib proofs [] hres
  · simpa [delete_assets_by_metadata] using delete_loop_all_true md5c lib proofs [] false hall

/-- Device library holding asset P with one byte of data. -/
def wLib : List DeviceAsset := [{ meta := wAssetP, data := [5] }]

/-- The live representation `retrieve_asset_by_local_id` produces for P
under the stand-in digest. -/
def wOpm : Dict :=
  dinsert (dinsert (dinsert wAssetP "_filesize" (.int 1)) "_data" (.bytes [5]))
    "_md5" (.str "1")

/-- Proof record agreeing with the live representation of P. -/
def wGoodRec : Dict := dinsert (dinsert wAssetP "_filesize" (.int 1)) "_md5" (.str "1")

/-- Proof record agreeing with the live representation of P except for
`_md5`. -/
def wBadRec : Dict := dinsert (dinsert wAssetP "_filesize" (.int 1)) "_md5" (.str "9")

/-- Witness for `delete_batch_all_or_nothing`: a batch of one matching and
one mismatching record is aborted without the override and fully deleted
with it. -/
theorem delete_batch_all_or_nothing_witness :
    (∀ m ∈ [wGoodRec, wBadRec], recordComparison wMd5 wLib m ≠ Option.none) ∧
    delete_assets_by_metadata wMd5 wLib [wGoodRec, wBadRec] false = .ok .aborted ∧
    delete_assets_by_metadata wMd5 wLib [wGoodRec, wBadRec] true =
      .ok (.completed [.str "P1", .str "P1"]) :=
  ⟨by decide,
    (delete_batch_all_or_nothing wMd5 wLib [wGoodRec, wBadRec] (by decide)).1
      ⟨wBadRec, by decide, by decide⟩,
    (delete_batch_all_or_nothing wMd5 wLib [wGoodRec, wBadRec] (by decide)).2.1⟩

/-- C5 counterexample: a proof record that agrees with the recomputed live
representation on every field once all three transient fields are stripped
(as the specification's comparison would require) is nevertheless rejected
by the code, because only `_data` is dropped before the comparison and the
differing `_md5` is compared. -/
theorem delete_comparison_strips_all_transients_false :
    retrieve_asset_by_local_id wMd5 wLib (.str "P1") = .ok wOpm ∧
    dictEqv (stripTransient (derase wOpm "_data")) (stripTransient wBadRec) = true ∧
    delete_assets_by_metadata wMd5 wLib [wBadRec] false = .ok .aborted :=
  ⟨by decide, by decide, by decide⟩

/-- C5 amended: the device-side comparison excludes only `_data`; the
recomputed `_filesize` and `_md5` are part of the field-for-field
comparison, so acceptance of a record is exactly dictionary equality of the
live representation minus `_data` with the record. -/
theorem delete_comparison_excludes_only_data (md5c : List Nat → String)
    (lib : List DeviceAsset) (m : Dict) (lid : PyVal) (opm : Dict)
    (h1 : dictGet m "local_id" = .ok lid)
    (h2 : retrieve_asset_by_local_id md5c lib lid = .ok opm) :
    (delete_assets_by_metadata md5c lib [m] false = .ok (.completed [lid]) ↔
      dictEqv (derase opm "_data") m = true) ∧
    (delete_assets_by_metadata md5c lib [m] false = .ok .aborted ↔
      dictEqv (derase opm "_data") m = false) := by
  unfold delete_assets_by_metadata
  rw [delete_loop_step md5c lib m [] [] false lid opm h1 h2]
  by_cases hc : dictEqv (derase opm "_data") m
  · rw [if_pos hc]
    simp [delete_assets_loop, hc]
  · rw [if_neg hc]
    simp only [Bool.not_eq_true] at hc
    simp [hc]

/-- Witness for `delete_comparison_excludes_only_data`: the matching record
for P is accepted and deleted. -/
theorem delete_comparison_excludes_only_data_witness :
    dictEqv (derase wOpm "_data") wGoodRec = true ∧
    delete_assets_by_metadata wMd5 wLib [wGoodRec] false = .ok (.completed [.str "P1"]) :=
  ⟨by decide,
    ((delete_comparison_excludes_only_data wMd5 wLib wGoodRec (.str "P1") wOpm
      (by decide) (by decide)).1).mpr (by decide)⟩

theorem get_metadata_path_ok_elim (st : Storage) (asset : Dict) (q : String)
    (h : get_metadata_path st asset = .ok q) :
    ∃ m, metadata_for_path asset = .ok m := by
  simp only [get_metadata_path] at h
  cases hm : metadata_for_path asset with
  | error e => simp [hm, except_bind_error] at h
  | ok m => exact ⟨m, rfl⟩

theorem metadata_for_path_ok_mod (asset m : Dict) (h : metadata_for_path asset = .ok m) :
    ∃ n : Int, dlookup asset "modification_date" = some (.int n) := by
  simp only [metadata_for_path] at h
  cases h1 : addDateField asset asset "Y" "create" "creation_date" with
  | error e => simp [h1, except_bind_error] at h
  | ok z1 =>
    simp only [h1, except_bind_ok] at h
    cases h2 : addDateField asset z1 "m" "create" "creation_date" with
    | error e => simp [h2, except_bind_error] at h
    | ok z2 =>
      simp only [h2, except_bind_ok] at h
      cases h3 : addDateField asset z2 "Y" "mod" "modification_date" with
      | error e => simp [h3, except_bind_error] at h
      | ok z3 =>
        unfold addDateField at h3
        cases hl : dlookup asset "modification_date" with
        | none => simp only [hl] at h3; cases h3
        | some v =>
          simp only [hl] at h3
          cases v with
          | int n => exact ⟨n, rfl⟩
          | str s => cases h3
          | bool b => cases h3
          | bytes b => cases h3
          | none => cases h3

/-- Evaluation of `retrieve` once the device response is in hand: the data
file is written first, then either the size or the checksum error is raised
with the file system left at that point, or both checks pass and the
sidecar commit happens. -/
theorem retrieve_eval (md5c : List Nat → String) (p : PyVal → Except PyErr Dict)
    (st : Storage) (fs : FS) (asset : Dict) (gp pmd : String) (lid : PyVal)
    (retrieved : Dict) (dat : List Nat) (fszv md5v : PyVal)
    (hgp : get_path st asset = .ok gp)
    (hmd : get_metadata_path st asset = .ok pmd)
    (hlid : dictGet asset "local_id" = .ok lid)
    (hp : p lid = .ok retrieved)
    (hdat : dlookup retrieved "_data" = some (.bytes dat))
    (hfs : dlookup retrieved "_filesize" = some fszv)
    (hmd5 : dlookup retrieved "_md5" = some md5v)
    (hdg : os_path_dirname gp ≠ "")
    (hdm : os_path_dirname pmd ≠ "") :
    retrieve md5c p st fs asset =
      if PyVal.int dat.length ≠ fszv then
        (fsSet fs gp (.bytes dat), .error .sizeMismatch)
      else if PyVal.str (md5c dat) ≠ md5v then
        (fsSet fs gp (.bytes dat), .error .checksumMismatch)
      else
        (fsSet (fsSet fs gp (.bytes dat)) pmd
          (.json (retrieved.filter (fun kv => !(pyStartsWith1 kv.1 '_')))), .ok retrieved) := by
  simp only [retrieve, hgp, hmd, hlid, hp, hdat, hfs, hmd5, os_makedirs, if_neg hdg,
    if_neg hdm, except_bind_ok, except_pure_ok, fsGet_fsSet_self]

/-- C1: under a device response carrying `_data` bytes, a reported
`_filesize` and a reported `_md5`, and with the asset's data and metadata
paths distinct, `retrieve` raises the size error whenever the length of the
re-read file differs from the report, raises the checksum error whenever
the length agrees but the recomputed digest differs from the report, never
changes the sidecar path on any failure, and leaves a previously
sync-needed asset listed by a subsequent `files_to_sync` (well-formedness
of a pre-existing sidecar is assumed so that the subsequent planner run
does not raise, and both paths have nonempty dirnames so that the
`os.makedirs` calls preceding the write do not raise). -/
theorem retrieve_verification_gate (md5c : List Nat → String)
    (p : PyVal → Except PyErr Dict) (st : Storage) (fs : FS) (asset : Dict)
    (gp pmd : String) (lid : PyVal) (retrieved : Dict) (dat : List Nat) (fszv md5v : PyVal)
    (hgp : get_path st asset = .ok gp)
    (hmd : get_metadata_path st asset = .ok pmd)
    (hlid : dictGet asset "local_id" = .ok lid)
    (hp : p lid = .ok retrieved)
    (hdat : dlookup retrieved "_data" = some (.bytes dat))
    (hfs : dlookup retrieved "_filesize" = some fszv)
    (hmd5 : dlookup retrieved "_md5" = some md5v)
    (hdg : os_path_dirname gp ≠ "")
    (hdm : os_path_dirname pmd ≠ "")
    (hne : gp ≠ pmd)
    (hwf : ∀ d, fsGet fs pmd = some (.json d) → (dlookup d "modification_date").isSome = true) :
    (PyVal.int dat.length ≠ fszv →
      retrieve md5c p st fs asset = (fsSet fs gp (.bytes dat), .error .sizeMismatch)) ∧
    (PyVal.int dat.length = fszv → PyVal.str (md5c dat) ≠ md5v →
      retrieve md5c p st fs asset = (fsSet fs gp (.bytes dat), .error .checksumMismatch)) ∧
    (∀ e, (retrieve md5c p st fs asset).2 = .error e →
      fsGet (retrieve md5c p st fs asset).1 pmd = fsGet fs pmd) ∧
    (∀ e, (retrieve md5c p st fs asset).2 = .error e →
      syncNeeded st fs asset = true →
      files_to_sync st (retrieve md5c p st fs asset).1 [asset] = .ok [asset]) := by
  have heval := retrieve_eval md5c p st fs asset gp pmd lid retrieved dat fszv md5v
    hgp hmd hlid hp hdat hfs hmd5 hdg hdm
  have hsize : PyVal.int dat.length ≠ fszv →
      retrieve md5c p st fs asset = (fsSet fs gp (.bytes dat), .error .sizeMismatch) := by
    intro hx
    rw [heval, if_pos hx]
  have hsum : PyVal.int dat.length = fszv → PyVal.str (md5c dat) ≠ md5v →
      retrieve md5c p st fs asset = (fsSet fs gp (.bytes dat), .error .checksumMismatch) := by
    intro hx hy
    rw [heval, if_neg (by simp [hx]), if_pos hy]
  have hfsform : ∀ e, (retrieve md5c p st fs asset).2 = .error e →
      (retrieve md5c p st fs asset).1 = fsSet fs gp (.bytes dat) := by
    intro e herr
    by_cases hx : PyVal.int dat.length ≠ fszv
    · rw [hsize hx]
    · push_neg at hx
      by_cases hy : PyVal.str (md5c dat) ≠ md5v
      · rw [hsum hx hy]
      · rw [heval, if_neg (by simp [hx]), if_neg hy] at herr
        cases herr
  have hpm : ∀ e, (retrieve md5c p st fs asset).2 = .error e →
      fsGet (retrieve md5c p st fs asset).1 pmd = fsGet fs pmd := by
    intro e herr
    rw [hfsform e herr]
    exact fsGet_fsSet_ne fs gp pmd (.bytes dat) hne
  refine ⟨hsize, hsum, hpm, ?_⟩
  intro e herr hneed
  have hfsp := hpm e herr
  obtain ⟨mm, hmm⟩ := get_metadata_path_ok_elim st asset pmd hmd
  obtain ⟨n, hmodA⟩ := metadata_for_path_ok_mod asset mm hmm
  simp only [files_to_sync, hmd, except_bind_ok, hfsp]
  unfold syncNeeded at hneed
  simp only [hmd] at hneed
  cases hside : fsGet fs pmd with
  | none => simp only [hside]; rfl
  | some fv =>
    cases fv with
    | bytes b => simp [hside] at hneed
    | json d =>
      simp only [hside] at hneed ⊢
      obtain ⟨dv, hdv⟩ := Option.isSome_iff_exists.mp (hwf d hside)
      have hnev : dv ≠ PyVal.int n := by
        intro hc
        rw [hdv, hmodA, hc] at hneed
        simp at hneed
      simp only [dictGet, hdv, hmodA, except_bind_ok]
      rw [if_pos hnev]
      rfl

/-- C8 amended: when `retrieve` fails its size or checksum verification, the
metadata sidecar path is left exactly as it was, but the data file has
already been overwritten with the downloaded bytes. -/
theorem retrieve_failure_archive_effect (md5c : List Nat → String)
    (p : PyVal → Except PyErr Dict) (st : Storage) (fs : FS) (asset : Dict)
    (gp pmd : String) (lid : PyVal) (retrieved : Dict) (dat : List Nat) (fszv md5v : PyVal)
    (hgp : get_path st asset = .ok gp)
    (hmd : get_metadata_path st asset = .ok pmd)
    (hlid : dictGet asset "local_id" = .ok lid)
    (hp : p lid = .ok retrieved)
    (hdat : dlookup retrieved "_data" = some (.bytes dat))
    (hfs : dlookup retrieved "_filesize" = some fszv)
    (hmd5 : dlookup retrieved "_md5" = some md5v)
    (hdg : os_path_dirname gp ≠ "")
    (hdm : os_path_dirname pmd ≠ "")
    (hne : gp ≠ pmd) :
    ∀ e, (retrieve md5c p st fs asset).2 = .error e →
      fsGet (retrieve md5c p st fs asset).1 pmd = fsGet fs pmd ∧
      fsGet (retrieve md5c p st fs asset).1 gp = some (.bytes dat) := by
  have heval := retrieve_eval md5c p st fs asset gp pmd lid retrieved dat fszv md5v
    hgp hmd hlid hp hdat hfs hmd5 hdg hdm
  intro e herr
  have hform : (retrieve md5c p st fs asset).1 = fsSet fs gp (.bytes dat) := by
    by_cases hx : PyVal.int dat.length ≠ fszv
    · rw [heval, if_pos hx]
    · push_neg at hx
      by_cases hy : PyVal.str (md5c dat) ≠ md5v
      · rw [heval, if_neg (by simp [hx]), if_pos hy]
      · rw [heval, if_neg (by simp [hx]), if_neg hy] at herr
        cases herr
  rw [hform]
  exact ⟨fsGet_fsSet_ne fs gp pmd (.bytes dat) hne, fsGet_fsSet_self fs gp (.bytes dat)⟩

/-- Device stub whose response reports a wrong `_filesize` for asset A. -/
def wBadPhone : PyVal → Except PyErr Dict := fun _ =>
  .ok (dinsert (dinsert (dinsert wAssetA "_filesize" (.int 999)) "_data" (.bytes [7]))
    "_md5" (.str "1"))

/-- The response dictionary `wBadPhone` returns. -/
def wBadRetrieved : Dict :=
  dinsert (dinsert (dinsert wAssetA "_filesize" (.int 999)) "_data" (.bytes [7]))
    "_md5" (.str "1")

/-- C8 counterexample: a retrieve that fails its size verification has
nevertheless modified the asset's data file, which was absent before the
call and holds the downloaded bytes after it. -/
theorem retrieve_failure_modifies_data_file :
    (retrieve wMd5 wBadPhone wStorage [] wAssetA).2 = .error .sizeMismatch ∧
    fsGet (retrieve wMd5 wBadPhone wStorage [] wAssetA).1 "/tmp/storage/2020-09/a.heic" ≠
      fsGet ([] : FS) "/tmp/storage/2020-09/a.heic" :=
  ⟨by decide, by decide⟩

/-- Witness for `retrieve_failure_archive_effect` on the failing size
check. -/
theorem retrieve_failure_archive_effect_witness :
    (retrieve wMd5 wBadPhone wStorage [] wAssetA).2 = .error .sizeMismatch ∧
    (fsGet (retrieve wMd5 wBadPhone wStorage [] wAssetA).1
        "/tmp/storage/2020-09/metadata/a.json" =
      fsGet ([] : FS) "/tmp/storage/2020-09/metadata/a.json" ∧
     fsGet (retrieve wMd5 wBadPhone wStorage [] wAssetA).1 "/tmp/storage/2020-09/a.heic" =
      some (.bytes [7])) :=
  ⟨by decide,
    retrieve_failure_archive_effect wMd5 wBadPhone wStorage [] wAssetA
      "/tmp/storage/2020-09/a.heic" "/tmp/storage/2020-09/metadata/a.json" (.str "A1")
      wBadRetrieved [7] (.int 999) (.str "1")
      (by decide) (by decide) (by decide) (by decide) (by decide) (by decide) (by decide)
      (by decide) (by decide) (by decide) .sizeMismatch (by decide)⟩

/-- Witness for `retrieve_verification_gate` on the failing size check: the
error is raised, the sidecar path stays empty, and the asset is still
listed by the next planner run. -/
theorem retrieve_verification_gate_witness :
    syncNeeded wStorage [] wAssetA = true ∧
    retrieve wMd5 wBadPhone wStorage [] wAssetA =
      (fsSet [] "/tmp/storage/2020-09/a.heic" (.bytes [7]), .error .sizeMismatch) ∧
    files_to_sync wStorage (retrieve wMd5 wBadPhone wStorage [] wAssetA).1 [wAssetA] =
      .ok [wAssetA] := by
  have h := retrieve_verification_gate wMd5 wBadPhone wStorage [] wAssetA
    "/tmp/storage/2020-09/a.heic" "/tmp/storage/2020-09/metadata/a.json" (.str "A1")
    wBadRetrieved [7] (.int 999) (.str "1")
    (by decide) (by decide) (by decide) (by decide) (by decide) (by decide) (by decide)
    (by decide) (by decide) (by decide) (by intro d hd; simp [fsGet] at hd)
  exact ⟨by decide, h.1 (by decide), h.2.2.2 .sizeMismatch (by decide) (by decide)⟩

theorem lget_set_ne {α : Type} : ∀ (l : List α) (n m : Nat) (a : α), n ≠ m →
    (l.set n a).get? m = l.get? m
  | [], _, _, _, _ => rfl
  | _ :: _, 0, 0, _, h => absurd rfl h
  | _ :: _, 0, _ + 1, _, _ => rfl
  | _ :: _, _ + 1, 0, _, _ => rfl
  | _ :: xs, n + 1, m + 1, a, h => by
      simp only [List.set, List.get?]
      exact lget_set_ne xs n m a (fun hc => h (by rw [hc]))

theorem lget_append_left {α : Type} : ∀ (l l2 : List α) (m : Nat), m < l.length →
    (l ++ l2).get? m = l.get? m
  | [], _, _, h => absurd h (by simp)
  | _ :: _, _, 0, _ => rfl
  | _ :: xs, l2, m + 1, h => by
      simp only [List.cons_append, List.get?]
      exact lget_append_left xs l2 m (by simpa using h)

/-- A single date-field assignment only writes the cell of `z`. -/
theorem mfpStep_frame (h : Heap) (assetR zR : Nat) (f sfx key : String) (h2 : Heap)
    (hs : mfpStep h assetR zR f sfx key = .ok h2) :
    h2.length = h.length ∧ ∀ i, i ≠ zR → h2.get? i = h.get? i := by
  unfold mfpStep at hs
  cases hg : heapGetKey h assetR key with
  | error e => simp [hg, except_bind_error] at hs
  | ok t =>
    simp only [hg, except_bind_ok] at hs
    cases t with
    | str s => simp at hs
    | bool b => simp at hs
    | bytes b => simp at hs
    | none => simp at hs
    | int n =>
      cases hf : strftime1 f n with
      | error e => simp [hf, except_bind_error] at hs
      | ok s =>
        simp only [hf, except_bind_ok] at hs
        unfold heapSetKey at hs
        cases hc : h.get? zR with
        | none => rw [hc] at hs; cases hs
        | some d =>
          rw [hc] at hs
          cases hs
          exact ⟨by simp, fun i hi => lget_set_ne h zR i _ (fun hc2 => hi hc2.symm)⟩

/-- The copy-then-assign discipline of `metadata_for_path_mut` never writes
a pre-existing heap cell: the heap only grows and every reference valid
before the call dereferences identically afterwards. -/
theorem metadata_for_path_mut_frame (h : Heap) (assetR : Nat) (h2 : Heap) (zR : Nat)
    (hm : metadata_for_path_mut h assetR = .ok (h2, zR)) :
    h.length ≤ h2.length ∧ ∀ i, i < h.length → h2.get? i = h.get? i := by
  unfold metadata_for_path_mut at hm
  cases hcp : heapCopy h assetR with
  | error e => simp [hcp, except_bind_error] at hm
  | ok pr =>
    obtain ⟨h1, z1⟩ := pr
    simp only [hcp, except_bind_ok] at hm
    unfold heapCopy at hcp
    cases hg : h.get? assetR with
    | none => rw [hg] at hcp; cases hcp
    | some d =>
      rw [hg] at hcp
      cases hcp
      cases hs1 : mfpStep (h ++ [d]) assetR h.length "Y" "create" "creation_date" with
      | error e => simp [hs1, except_bind_error] at hm
      | ok ha =>
        simp only [hs1, except_bind_ok] at hm
        cases hs2 : mfpStep ha assetR h.length "m" "create" "creation_date" with
        | error e => simp [hs2, except_bind_error] at hm
        | ok hb =>
          simp only [hs2, except_bind_ok] at hm
          cases hs3 : mfpStep hb assetR h.length "Y" "mod" "modification_date" with
          | error e => simp [hs3, except_bind_error] at hm
          | ok hc =>
            simp only [hs3, except_bind_ok] at hm
            cases hs4 : mfpStep hc assetR h.length "m" "mod" "modification_date" with
            | error e => simp [hs4, except_bind_error] at hm
            | ok hd =>
              simp only [hs4, except_bind_ok, except_pure_ok, Except.ok.injEq,
                Prod.mk.injEq] at hm
              obtain ⟨hm1, _⟩ := hm
              subst hm1
              obtain ⟨l1, f1⟩ := mfpStep_frame _ assetR h.length _ _ _ ha hs1
              obtain ⟨l2, f2⟩ := mfpStep_frame _ assetR h.length _ _ _ hb hs2
              obtain ⟨l3, f3⟩ := mfpStep_frame _ assetR h.length _ _ _ hc hs3
              obtain ⟨l4, f4⟩ := mfpStep_frame _ assetR h.length _ _ _ hd hs4
              have hlen : hd.length = h.length + 1 := by
                rw [l4, l3, l2, l1]; simp
              constructor
              · rw [hlen]; exact Nat.le_succ _
              · intro i hi
                have hne : i ≠ h.length := Nat.ne_of_lt hi
                rw [f4 i hne, f3 i hne, f2 i hne, f1 i hne]
                exact lget_append_left h [d] i hi

/-- `get_path_mut` never writes a pre-existing heap cell. -/
theorem get_path_mut_frame (st : Storage) (h : Heap) (assetR : Nat) (h2 : Heap) (s : String)
    (hg : get_path_mut st h assetR = .ok (h2, s)) :
    h.length ≤ h2.length ∧ ∀ i, i < h.length → h2.get? i = h.get? i := by
  unfold get_path_mut at hg
  cases hm : metadata_for_path_mut h assetR with
  | error e => simp [hm, except_bind_error] at hg
  | ok pr =>
    obtain ⟨h1, zR⟩ := pr
    simp only [hm, except_bind_ok] at hg
    have hf := metadata_for_path_mut_frame h assetR h1 zR hm
    cases hget : heapGet h1 zR with
    | none => rw [hget] at hg; cases hg
    | some m =>
      simp only [hget] at hg
      cases hpf : pyFormat st.path m with
      | error e => simp [hpf, except_bind_error] at hg
      | ok s2 =>
        simp only [hpf, except_bind_ok, except_pure_ok, Except.ok.injEq, Prod.mk.injEq] at hg
        obtain ⟨hg1, _⟩ := hg
        subst hg1
        exact hf

/-- `get_metadata_path_mut` never writes a pre-existing heap cell. -/
theorem get_metadata_path_mut_frame (st : Storage) (h : Heap) (assetR : Nat) (h2 : Heap)
    (s : String) (hg : get_metadata_path_mut st h assetR = .ok (h2, s)) :
    h.length ≤ h2.length ∧ ∀ i, i < h.length → h2.get? i = h.get? i := by
  unfold get_metadata_path_mut at hg
  cases hm : metadata_for_path_mut h assetR with
  | error e => simp [hm, except_bind_error] at hg
  | ok pr =>
    obtain ⟨h1, zR⟩ := pr
    simp only [hm, except_bind_ok] at hg
    have hf := metadata_for_path_mut_frame h assetR h1 zR hm
    cases hget : heapGet h1 zR with
    | none => rw [hget] at hg; cases hg
    | some m =>
      simp only [hget] at hg
      cases hpf : pyFormat st.metadata_path m with
      | error e => simp [hpf, except_bind_error] at hg
      | ok s2 =>
        simp only [hpf, except_bind_ok, except_pure_ok, Except.ok.injEq, Prod.mk.injEq] at hg
        obtain ⟨hg1, _⟩ := hg
        subst hg1
        exact hf

/-- `files_to_sync_mut` never writes a pre-existing heap cell. -/
theorem files_to_sync_mut_frame (st : Storage) (fs : FS) :
    ∀ (rs : List Nat) (h : Heap) (h2 : Heap) (out : List Nat),
      files_to_sync_mut st fs h rs = .ok (h2, out) →
      h.length ≤ h2.length ∧ ∀ i, i < h.length → h2.get? i = h.get? i := by
  intro rs
  induction rs with
  | nil =>
    intro h h2 out hr
    simp only [files_to_sync_mut, Except.ok.injEq, Prod.mk.injEq] at hr
    obtain ⟨hr1, _⟩ := hr
    subst hr1
    exact ⟨Nat.le_refl _, fun i _ => rfl⟩
  | cons r rest ih =>
    intro h h2 out hr
    simp only [files_to_sync_mut] at hr
    cases hg : get_metadata_path_mut st h r with
    | error e => simp [hg, except_bind_error] at hr
    | ok pr =>
      obtain ⟨h1, pmd⟩ := pr
      simp only [hg, except_bind_ok] at hr
      have hf1 := get_metadata_path_mut_frame st h r h1 pmd hg
      have compose : ∀ h3 : Heap, h1.length ≤ h3.length →
          (∀ i, i < h1.length → h3.get? i = h1.get? i) →
          h.length ≤ h3.length ∧ ∀ i, i < h.length → h3.get? i = h.get? i := by
        intro h3 hl hp
        refine ⟨Nat.le_trans hf1.1 hl, fun i hi => ?_⟩
        rw [hp i (Nat.lt_of_lt_of_le hi hf1.1), hf1.2 i hi]
      cases hside : fsGet fs pmd with
      | none =>
        cases hrec : files_to_sync_mut st fs h1 rest with
        | error e => simp [hside, hrec, except_bind_error] at hr
        | ok pr2 =>
          obtain ⟨h3, out2⟩ := pr2
          simp only [hside, hrec, except_bind_ok, except_pure_ok, Except.ok.injEq,
            Prod.mk.injEq] at hr
          obtain ⟨hr1, _⟩ := hr
          subst hr1
          have := ih h1 h3 out2 hrec
          exact compose h3 this.1 this.2
      | some fv =>
        cases fv with
        | bytes b => simp [hside] at hr
        | json d =>
          simp only [hside] at hr
          cases hdv : dictGet d "modification_date" with
          | error e => simp [hdv, except_bind_error] at hr
          | ok dv =>
            simp only [hdv, except_bind_ok] at hr
            cases hav : heapGetKey h1 r "modification_date" with
            | error e => simp [hav, except_bind_error] at hr
            | ok av =>
              simp only [hav, except_bind_ok] at hr
              by_cases hne : dv = av
              · subst hne
                simp only [ne_eq, not_true_eq_false, reduceIte] at hr
                have := ih h1 h2 out hr
                exact compose h2 this.1 this.2
              · simp only [ne_eq, hne, not_false_eq_true, reduceIte] at hr
                cases hrec : files_to_sync_mut st fs h1 rest with
                | error e => simp [hrec, except_bind_error] at hr
                | ok pr2 =>
                  obtain ⟨h3, out2⟩ := pr2
                  simp only [hrec, except_bind_ok, except_pure_ok, Except.ok.injEq,
                    Prod.mk.injEq] at hr
                  obtain ⟨hr1, _⟩ := hr
                  subst hr1
                  have := ih h1 h3 out2 hrec
                  exact compose h3 this.1 this.2

/-- C10: the path computations do not mutate any pre-existing dictionary, in
particular not their asset argument: for every reference valid before the
call, `metadata_for_path`, `get_path`, `get_metadata_path` and
`files_to_sync` leave its cell dereferencing to exactly the same dictionary
(same keys, same values); the derived `Y`/`m` fields are built on a fresh
copy. -/
theorem path_ops_do_not_mutate_asset (st : Storage) (h : Heap) (i : Nat)
    (hi : i < h.length) :
    (∀ r h2 zR, metadata_for_path_mut h r = .ok (h2, zR) → h2.get? i = h.get? i) ∧
    (∀ r h2 s, get_path_mut st h r = .ok (h2, s) → h2.get? i = h.get? i) ∧
    (∀ r h2 s, get_metadata_path_mut st h r = .ok (h2, s) → h2.get? i = h.get? i) ∧
    (∀ fs rs h2 out, files_to_sync_mut st fs h rs = .ok (h2, out) → h2.get? i = h.get? i) := by
  refine ⟨fun r h2 zR hm => ?_, fun r h2 s hm => ?_, fun r h2 s hm => ?_,
    fun fs rs h2 out hm => ?_⟩
  · exact (metadata_for_path_mut_frame h r h2 zR hm).2 i hi
  · exact (get_path_mut_frame st h r h2 s hm).2 i hi
  · exact (get_metadata_path_mut_frame st h r h2 s hm).2 i hi
  · exact (files_to_sync_mut_frame st fs rs h h2 out hm).2 i hi

/-- Heap left by `metadata_for_path_mut` (the input heap when it fails);
used to state closed instances of the frame property. -/
def mfpHeapOf (h : Heap) (r : Nat) : Heap :=
  match metadata_for_path_mut h r with
  | .ok (h2, _) => h2
  | .error _ => h

/-- Heap left by `files_to_sync_mut` (the input heap when it fails). -/
def ftsHeapOf (st : Storage) (fs : FS) (h : Heap) (rs : List Nat) : Heap :=
  match files_to_sync_mut st fs h rs with
  | .ok (h2, _) => h2
  | .error _ => h

/-- Witness for `path_ops_do_not_mutate_asset`: on a one-cell heap holding
asset A, both `metadata_for_path` and a `files_to_sync` run leave cell 0
holding exactly the original dictionary. -/
theorem path_ops_do_not_mutate_asset_witness :
    0 < ([wAssetA] : Heap).length ∧
    (mfpHeapOf [wAssetA] 0).get? 0 = ([wAssetA] : Heap).get? 0 ∧
    (ftsHeapOf wStorage [] [wAssetA] [0]).get? 0 = ([wAssetA] : Heap).get? 0 :=
  ⟨by decide,
    (path_ops_do_not_mutate_asset wStorage [wAssetA] 0 (by decide)).1 0
      (mfpHeapOf [wAssetA] 0) 1 (by decide),
    (path_ops_do_not_mutate_asset wStorage [wAssetA] 0 (by decide)).2.2.2 [] [0]
      (ftsHeapOf wStorage [] [wAssetA] [0]) [0] (by decide)⟩

/-- A successful `retrieve` determines the shape of the resulting archive:
both paths computed, the asset fetched, its `_data` bytes written to the
data path, and the cleaned response committed to the metadata path. -/
theorem retrieve_ok_elim (md5c : List Nat → String) (p : PyVal → Except PyErr Dict)
    (st : Storage) (fs : FS) (asset : Dict) (fs2 : FS) (r : Dict)
    (h : retrieve md5c p st fs asset = (fs2, .ok r)) :
    ∃ gp pmd lid dat,
      get_path st asset = .ok gp ∧
      get_metadata_path st asset = .ok pmd ∧
      dictGet asset "local_id" = .ok lid ∧
      p lid = .ok r ∧
      dlookup r "_data" = some (.bytes dat) ∧
      fs2 = fsSet (fsSet fs gp (.bytes dat)) pmd
        (.json (r.filter (fun kv => !(pyStartsWith1 kv.1 '_')))) := by
  unfold retrieve at h
  cases hgp : get_path st asset with
  | error e => simp [hgp, except_bind_error] at h
  | ok gp =>
    simp only [hgp, except_bind_ok] at h
    cases hmd : get_metadata_path st asset with
    | error e => simp [hmd, except_bind_error] at h
    | ok pmd =>
      simp only [hmd, except_bind_ok] at h
      cases hlid : dictGet asset "local_id" with
      | error e => simp [hlid, except_bind_error] at h
      | ok lid =>
        simp only [hlid, except_bind_ok] at h
        cases hp : p lid with
        | error e => simp [hp, except_bind_error] at h
        | ok retrieved =>
          simp only [hp, except_bind_ok] at h
          cases hdat : dlookup retrieved "_data" with
          | none => simp [hdat, except_bind_error] at h
          | some v =>
            simp only [hdat] at h
            cases v with
            | str s => simp [except_bind_error] at h
            | int n => simp [except_bind_error] at h
            | bool b => simp [except_bind_error] at h
            | none => simp [except_bind_error] at h
            | bytes dat =>
              by_cases hdg : os_path_dirname gp = ""
              · simp [os_makedirs, hdg, except_bind_error] at h
              by_cases hdm : os_path_dirname pmd = ""
              · simp [os_makedirs, if_neg hdg, hdm, except_bind_ok, except_bind_error] at h
              simp only [os_makedirs, if_neg hdg, if_neg hdm, except_bind_ok] at h
              simp only [except_pure_ok, fsGet_fsSet_self] at h
              cases hfsz : dlookup retrieved "_filesize" with
              | none => simp [hfsz] at h
              | some fszv =>
                simp only [hfsz] at h
                by_cases hsz : PyVal.int dat.length ≠ fszv
                · rw [if_pos hsz] at h; simp at h
                · rw [if_neg hsz] at h
                  cases hmd5v : dlookup retrieved "_md5" with
                  | none => simp [hmd5v] at h
                  | some mv =>
                    simp only [hmd5v] at h
                    by_cases hcs : PyVal.str (md5c dat) ≠ mv
                    · rw [if_pos hcs] at h; simp at h
                    · rw [if_neg hcs] at h
                      simp only [Prod.mk.injEq, Except.ok.injEq] at h
                      obtain ⟨hfs2, hr⟩ := h
                      subst hr
                      exact ⟨gp, pmd, lid, dat, rfl, rfl, rfl, hp, hdat, hfs2.symm⟩

/-- The device invariant stated by the specification: distinct `local_id`s
across the library. -/
def distinctLocalIds (lib : List DeviceAsset) : Prop :=
  lib.Pairwise (fun a b => dlookup a.meta "local_id" ≠ dlookup b.meta "local_id")

/-- With distinct `local_id`s, looking up an asset's own id finds exactly
that asset. -/
theorem device_lookup_self (lib : List DeviceAsset) (hdist : distinctLocalIds lib)
    (e : DeviceAsset) (he : e ∈ lib) (lid : PyVal)
    (hlid : dlookup e.meta "local_id" = some lid) :
    get_asset_with_local_id lib lid = some e := by
  induction lib with
  | nil => cases he
  | cons a rest ih =>
    rw [distinctLocalIds, List.pairwise_cons] at hdist
    rcases List.mem_cons.mp he with rfl | her
    · unfold get_asset_with_local_id
      simp [List.find?_cons, hlid]
    · have hne : (dlookup a.meta "local_id" == some lid) = false := by
        rw [beq_eq_false_iff_ne]
        intro hc
        exact (hdist.1 e her) (by rw [hc, hlid])
      unfold get_asset_with_local_id
      rw [List.find?_cons, hne]
      exact ih hdist.2 her

/-- Honest device response: retrieving an asset's own id returns its stored
metadata plus the transient fields computed from its stored bytes. -/
theorem device_retrieve_eq (md5c : List Nat → String) (lib : List DeviceAsset)
    (hdist : distinctLocalIds lib) (e : DeviceAsset) (he : e ∈ lib) (lid : PyVal)
    (hlid : dlookup e.meta "local_id" = some lid) :
    retrieve_asset_by_local_id md5c lib lid =
      .ok (dinsert (dinsert (dinsert e.meta "_filesize" (.int e.data.length))
        "_data" (.bytes e.data)) "_md5" (.str (md5c e.data))) := by
  unfold retrieve_asset_by_local_id
  rw [device_lookup_self lib hdist e he lid hlid]

/-- Stripping the underscore-prefixed keys of an honest device response
restores the stored metadata at every non-underscore key. -/
theorem dlookup_clean (meta : Dict) (fsz dat md5v : PyVal) (k : String)
    (hk : pyStartsWith1 k '_' = false) :
    dlookup (((dinsert (dinsert (dinsert meta "_filesize" fsz) "_data" dat)
        "_md5" md5v)).filter (fun kv => !(pyStartsWith1 kv.1 '_'))) k = dlookup meta k := by
  have h1 : ("_md5" : String) ≠ k := by
    intro hc; rw [← hc] at hk; exact absurd hk (by decide)
  have h2 : ("_data" : String) ≠ k := by
    intro hc; rw [← hc] at hk; exact absurd hk (by decide)
  have h3 : ("_filesize" : String) ≠ k := by
    intro hc; rw [← hc] at hk; exact absurd hk (by decide)
  rw [dlookup_filter_key _ (fun s => !(pyStartsWith1 s '_')) k (by simp only []; rw [hk]; rfl)]
  rw [dlookup_dinsert_ne _ _ _ _ h1, dlookup_dinsert_ne _ _ _ _ h2,
    dlookup_dinsert_ne _ _ _ _ h3]

/-- An asset's sidecar is in place and current: the file at its metadata
path is JSON whose stored `modification_date` equals the asset's. -/
def SidecarOK (st : Storage) (fs : FS) (a : Dict) : Prop :=
  ∃ q d, get_metadata_path st a = .ok q ∧ fsGet fs q = some (.json d) ∧
    dlookup d "modification_date" = dlookup a "modification_date"

/-- A successful planner run certifies, for every input asset, a computed
metadata path whose sidecar is either absent or JSON carrying a stored
`modification_date`. -/
theorem files_to_sync_ok_per_asset (st : Storage) (fs : FS) :
    ∀ (l r : List Dict), files_to_sync st fs l = .ok r →
      ∀ a ∈ l, ∃ q, get_metadata_path st a = .ok q ∧
        (fsGet fs q = Option.none ∨
          ∃ d dv, fsGet fs q = some (.json d) ∧
            dlookup d "modification_date" = some dv) := by
  intro l
  induction l with
  | nil => intro r h a ha; cases ha
  | cons b rest ih =>
    intro r h a ha
    simp only [files_to_sync] at h
    cases hp : get_metadata_path st b with
    | error e => simp [hp, except_bind_error] at h
    | ok q =>
      simp only [hp, except_bind_ok] at h
      rcases List.mem_cons.mp ha with rfl | har
      · cases hf : fsGet fs q with
        | none => exact ⟨q, hp, Or.inl hf⟩
        | some fv =>
          cases fv with
          | bytes bb => simp [hf] at h
          | json d =>
            simp only [hf] at h
            cases hdv : dictGet d "modification_date" with
            | error e => simp [hdv, except_bind_error] at h
            | ok dv =>
              exact ⟨q, hp, Or.inr ⟨d, dv, hf, (dictGet_ok_iff _ _ _).mp hdv⟩⟩
      · cases hf : fsGet fs q with
        | none =>
          simp only [hf] at h
          cases hrec : files_to_sync st fs rest with
          | error e => simp [hrec, except_map_error2] at h
          | ok r0 => exact ih r0 hrec a har
        | some fv =>
          cases fv with
          | bytes bb => simp [hf] at h
          | json d =>
            simp only [hf] at h
            cases hdv : dictGet d "modification_date" with
            | error e => simp [hdv, except_bind_error] at h
            | ok dv =>
              simp only [hdv, except_bind_ok] at h
              cases hav : dictGet b "modification_date" with
              | error e => simp [hav, except_bind_error] at h
              | ok av =>
                simp only [hav, except_bind_ok] at h
                by_cases hne : dv = av
                · subst hne
                  simp only [ne_eq, not_true_eq_false, reduceIte] at h
                  exact ih r h a har
                · simp only [ne_eq, hne, not_false_eq_true, reduceIte] at h
                  cases hrec : files_to_sync st fs rest with
                  | error e => simp [hrec, except_map_error2] at h
                  | ok r0 => exact ih r0 hrec a har

/-- When every asset's sidecar is in place and current, the planner returns
the empty list. -/
theorem files_to_sync_all_ok (st : Storage) (fs : FS) :
    ∀ (l : List Dict), (∀ a ∈ l, SidecarOK st fs a) →
      files_to_sync st fs l = .ok [] := by
  intro l
  induction l with
  | nil => intro _; rfl
  | cons b rest ih =>
    intro hall
    obtain ⟨q, d, hq, hf, hmod⟩ := hall b (by simp)
    obtain ⟨mm, hmm⟩ := get_metadata_path_ok_elim st b q hq
    obtain ⟨n, hmodb⟩ := metadata_for_path_ok_mod b mm hmm
    simp only [files_to_sync, hq, except_bind_ok, hf]
    have hd : dlookup d "modification_date" = some (.int n) := by rw [hmod, hmodb]
    simp only [dictGet, hd, hmodb, except_bind_ok]
    rw [if_neg (by simp)]
    exact ih (fun a ha => hall a (by simp [ha]))

/-- A successful `run_sync` step is a successful `retrieve` (the progress
report only reads the response). -/
theorem run_sync_step_ok_elim (md5c : List Nat → String) (p : PyVal → Except PyErr Dict)
    (st : Storage) (fs : FS) (b : Dict) (fs1 : FS)
    (h : run_sync_step md5c p st fs b = (fs1, .ok ())) :
    ∃ r, retrieve md5c p st fs b = (fs1, .ok r) := by
  unfold run_sync_step at h
  cases hr : retrieve md5c p st fs b with
  | mk fsx resx =>
    rw [hr] at h
    cases resx with
    | error e => simp at h
    | ok retrieved =>
      refine ⟨retrieved, ?_⟩
      have hfs : fsx = fs1 := by
        cases h1 : dlookup retrieved "filename" with
        | none => simp only [h1] at h; simp at h
        | some v1 =>
          cases h2 : dlookup retrieved "_filesize" with
          | none => simp only [h1, h2] at h; simp at h
          | some v2 =>
            simp only [h1, h2] at h
            cases h3 : dlookup retrieved "creation_date" with
            | none => simp only [h3] at h; simp at h
            | some v3 =>
              simp only [h3] at h
              cases v3 with
              | int n => simp only [Prod.mk.injEq] at h; exact h.1
              | str s => simp at h
              | bool bb => simp at h
              | bytes bb => simp at h
              | none => simp at h
      rw [hfs]

/-- Invariant of the download loop against an honest device: each
successful step establishes the retrieved asset's sidecar and, under the
path non-interference hypotheses, preserves every other asset's current
sidecar. -/
theorem run_sync_loop_invariant (md5c : List Nat → String) (lib : List DeviceAsset)
    (st : Storage) (hdist : distinctLocalIds lib)
    (H1 : ∀ a ∈ get_all_metadata lib, ∀ b ∈ get_all_metadata lib, ∀ q,
      get_metadata_path st a = .ok q → get_metadata_path st b = .ok q →
      dlookup a "modification_date" = dlookup b "modification_date")
    (H2 : ∀ a ∈ get_all_metadata lib, ∀ b ∈ get_all_metadata lib, ∀ gp q,
      get_path st a = .ok gp → get_metadata_path st b = .ok q → gp ≠ q) :
    ∀ (l : List Dict) (fs fs2 : FS),
      (∀ b2 ∈ l, b2 ∈ get_all_metadata lib) →
      run_sync_loop md5c (retrieve_asset_by_local_id md5c lib) st fs l = (fs2, .ok ()) →
      (∀ a ∈ get_all_metadata lib, SidecarOK st fs a ∨ a ∈ l) →
      ∀ a ∈ get_all_metadata lib, SidecarOK st fs2 a := by
  intro l
  induction l with
  | nil =>
    intro fs fs2 _ hrun hinv a ha
    simp only [run_sync_loop, Prod.mk.injEq] at hrun
    obtain ⟨h1, _⟩ := hrun
    subst h1
    rcases hinv a ha with hok | hmem
    · exact hok
    · exact absurd hmem (List.not_mem_nil a)
  | cons b rest ih =>
    intro fs fs2 hsub hrun hinv
    simp only [run_sync_loop] at hrun
    cases hstep : run_sync_step md5c (retrieve_asset_by_local_id md5c lib) st fs b with
    | mk fs1 res =>
      rw [hstep] at hrun
      cases res with
      | error e => simp at hrun
      | ok u =>
        cases u
        obtain ⟨r, hret⟩ := run_sync_step_ok_elim md5c _ st fs b fs1 hstep
        obtain ⟨gp, pmd, lid, dat, hgp, hmd, hlidg, hpr, hdat, hfs1⟩ :=
          retrieve_ok_elim md5c _ st fs b fs1 r hret
        have hbmem : b ∈ get_all_metadata lib := hsub b (by simp)
        obtain ⟨e, he, hemeta⟩ := List.mem_map.mp hbmem
        have hlid : dlookup b "local_id" = some lid := (dictGet_ok_iff _ _ _).mp hlidg
        have hrdev := device_retrieve_eq md5c lib hdist e he lid (by rw [hemeta]; exact hlid)
        have hr_eq : r = dinsert (dinsert (dinsert e.meta "_filesize" (.int e.data.length))
            "_data" (.bytes e.data)) "_md5" (.str (md5c e.data)) := by
          have hx := hpr
          rw [hrdev] at hx
          exact (Except.ok.inj hx).symm
        have hcleanmod :
            dlookup (r.filter (fun kv => !(pyStartsWith1 kv.1 '_'))) "modification_date" =
              dlookup b "modification_date" := by
          rw [hr_eq, dlookup_clean e.meta _ _ _ "modification_date" (by decide), hemeta]
        have hsb : SidecarOK st fs1 b := by
          refine ⟨pmd, r.filter (fun kv => !(pyStartsWith1 kv.1 '_')), hmd, ?_, hcleanmod⟩
          rw [hfs1]
          exact fsGet_fsSet_self _ _ _
        have hpres : ∀ a ∈ get_all_metadata lib, SidecarOK st fs a → SidecarOK st fs1 a := by
          intro a hamem hsc
          obtain ⟨q, d, hq, hfq, hmodq⟩ := hsc
          by_cases hqe : q = pmd
          · subst hqe
            refine ⟨q, r.filter (fun kv => !(pyStartsWith1 kv.1 '_')), hq, ?_, ?_⟩
            · rw [hfs1]; exact fsGet_fsSet_self _ _ _
            · rw [hcleanmod]
              exact (H1 a hamem b hbmem q hq hmd).symm
          · refine ⟨q, d, hq, ?_, hmodq⟩
            rw [hfs1, fsGet_fsSet_ne _ _ _ _ (fun hc => hqe hc.symm),
              fsGet_fsSet_ne _ _ _ _ (H2 b hbmem a hamem gp q hgp hq)]
            exact hfq
        apply ih fs1 fs2 (fun b2 hb2 => hsub b2 (by simp [hb2])) hrun
        intro a ha
        rcases hinv a ha with hok | hmem
        · exact Or.inl (hpres a ha hok)
        · rcases List.mem_cons.mp hmem with rfl | hmr
          · exact Or.inl hsb
          · exact Or.inr hmr

/-- C7 amended: against an honest device with distinct `local_id`s, and
provided the configured templates are non-interfering on the device's asset
list — any two assets sharing a metadata path agree on `modification_date`
(in particular whenever all metadata paths are distinct), and no asset's
data path coincides with any asset's metadata path — a successful `run_sync`
leaves an archive on which `files_to_sync` over the same unchanged asset
list returns the empty sequence, so a second run performs zero downloads. -/
theorem run_sync_idempotent (md5c : List Nat → String) (lib : List DeviceAsset)
    (st : Storage) (fs fs2 : FS)
    (hdist : distinctLocalIds lib)
    (H1 : ∀ a ∈ get_all_metadata lib, ∀ b ∈ get_all_metadata lib, ∀ q,
      get_metadata_path st a = .ok q → get_metadata_path st b = .ok q →
      dlookup a "modification_date" = dlookup b "modification_date")
    (H2 : ∀ a ∈ get_all_metadata lib, ∀ b ∈ get_all_metadata lib, ∀ gp q,
      get_path st a = .ok gp → get_metadata_path st b = .ok q → gp ≠ q)
    (hrun : run_sync md5c (retrieve_asset_by_local_id md5c lib) st fs
      (get_all_metadata lib) = (fs2, .ok ())) :
    files_to_sync st fs2 (get_all_metadata lib) = .ok [] := by
  unfold run_sync at hrun
  cases hplan : files_to_sync st fs (get_all_metadata lib) with
  | error e => rw [hplan] at hrun; simp at hrun
  | ok to_sync =>
    rw [hplan] at hrun
    have hfil := (files_to_sync_filter_spec st fs (get_all_metadata lib) to_sync hplan).1
    have hinv : ∀ a ∈ get_all_metadata lib, SidecarOK st fs a ∨ a ∈ to_sync := by
      intro a ha
      by_cases hneed : syncNeeded st fs a = true
      · exact Or.inr (hfil ▸ List.mem_filter.mpr ⟨ha, hneed⟩)
      · left
        obtain ⟨q, hq, hcase⟩ := files_to_sync_ok_per_asset st fs _ _ hplan a ha
        rcases hcase with hnone | ⟨d, dv, hj, hdv⟩
        · exact absurd (by simp [syncNeeded, hq, hnone]) hneed
        · refine ⟨q, d, hq, hj, ?_⟩
          simp only [syncNeeded, hq, hj, ne_eq, decide_not, Bool.not_eq_true,
            decide_eq_false_iff_not, not_not] at hneed
          simpa using hneed
    have hto_sub : ∀ b2 ∈ to_sync, b2 ∈ get_all_metadata lib := by
      intro b2 hb2
      rw [hfil] at hb2
      exact (List.mem_filter.mp hb2).1
    have hall := run_sync_loop_invariant md5c lib st hdist H1 H2 to_sync fs fs2
      hto_sub hrun hinv
    exact files_to_sync_all_ok st fs2 _ hall

/-- Assets with the same filename and the same creation month but distinct
`local_id`s and differing modification dates: under the source's default
templates (`wStorage`) both map to the metadata path
`/tmp/storage/2020-09/metadata/x.json`, and every dirname passed to
`os.makedirs` is nonempty. -/
def cexA : Dict :=
  [("local_id", .str "C1"), ("filename", .str "x.jpg"),
   ("creation_date", .int 1600000000), ("modification_date", .int 1600000000)]

def cexB : Dict :=
  [("local_id", .str "C2"), ("filename", .str "x.jpg"),
   ("creation_date", .int 1600000000), ("modification_date", .int 1600000001)]

def cexLib : List DeviceAsset :=
  [{ meta := cexA, data := [0] }, { meta := cexB, data := [1] }]

/-- C7 counterexample: at the default storage configuration, with two assets
whose metadata paths collide (same filename, same creation month) but whose
modification dates differ, a `run_sync` against an honest device completes
successfully, yet `files_to_sync` over the resulting archive and the same
unchanged asset list is not empty — asset A's shared sidecar was
overwritten by asset B's, so A would be downloaded again. -/
theorem run_sync_not_idempotent_on_collision :
    (run_sync wMd5 (retrieve_asset_by_local_id wMd5 cexLib) wStorage []
      (get_all_metadata cexLib)).2 = .ok () ∧
    files_to_sync wStorage
      (run_sync wMd5 (retrieve_asset_by_local_id wMd5 cexLib) wStorage []
        (get_all_metadata cexLib)).1 (get_all_metadata cexLib) ≠ .ok [] :=
  ⟨by decide, by decide⟩

/-- One-asset honest device for the idempotence witness. -/
def wLibW : List DeviceAsset := [{ meta := wAssetA, data := [7] }]

/-- Witness for `run_sync_idempotent`: syncing one asset from an empty
archive succeeds and the second planner run is empty. -/
theorem run_sync_idempotent_witness :
    (run_sync wMd5 (retrieve_asset_by_local_id wMd5 wLibW) wStorage []
      (get_all_metadata wLibW)).2 = .ok () ∧
    files_to_sync wStorage
      (run_sync wMd5 (retrieve_asset_by_local_id wMd5 wLibW) wStorage []
        (get_all_metadata wLibW)).1 (get_all_metadata wLibW) = .ok [] := by
  refine ⟨by decide, ?_⟩
  apply run_sync_idempotent wMd5 wLibW wStorage []
  · exact List.pairwise_singleton _ _
  · intro a ha b hb q h1 h2
    have hg : get_all_metadata wLibW = [wAssetA] := rfl
    rw [hg, List.mem_singleton] at ha hb
    subst ha
    subst hb
    rfl
  · intro a ha b hb gp q h1 h2
    have hg : get_all_metadata wLibW = [wAssetA] := rfl
    rw [hg, List.mem_singleton] at ha hb
    subst ha
    subst hb
    have e1 : get_path wStorage wAssetA = .ok "/tmp/storage/2020-09/a.heic" := by decide
    have e2 : get_metadata_path wStorage wAssetA =
        .ok "/tmp/storage/2020-09/metadata/a.json" := by decide
    rw [e1] at h1
    rw [e2] at h2
    cases h1
    cases h2
    decide
  · decide
